import Mathlib

/-!
Verification of the Xenopixel BLE protocol core (repository `ha-xenopixel`).

The development shallowly embeds the Python sources:
  * `src/xenopixel_ble/protocol.py` (library variant, namespace `XenoBLE`),
  * `custom_components/xenopixel/xenopixel_ble/protocol.py` (integration
    variant, namespace `XenoCC`),
  * `tools/test_saber.py` `send_command` (session behaviour, `SaberTool`).

Python's `json.dumps(..., separators=(",", ":")).encode("utf-8")` and
`bytes.decode("utf-8")` / `json.loads` are modelled by an executable
renderer, UTF-8 codec and a fuel-based JSON parser over the fragment the
protocol exercises (null, booleans, integer numerals, strings with the
standard short and \x5cu escapes, arrays, objects).  Deviations from the
Python library, none of which a protocol message can reach: float and
exponent numerals are rejected, and a lone surrogate \x5cu escape is
rejected.  Bytes are `List Nat`.
-/

namespace PyJson

def quoteChar : Char := Char.ofNat 34

def backslashChar : Char := Char.ofNat 92

def lbrace : Char := Char.ofNat 123

def rbrace : Char := Char.ofNat 125

/-- UTF-8 encoding of one unicode scalar value, as `str.encode("utf-8")`. -/
def utf8EncodeChar (c : Char) : List Nat :=
  let n := c.toNat
  if n < 0x80 then [n]
  else if n < 0x800 then [0xC0 + n / 64, 0x80 + n % 64]
  else if n < 0x10000 then [0xE0 + n / 4096, 0x80 + n / 64 % 64, 0x80 + n % 64]
  else [0xF0 + n / 262144, 0x80 + n / 4096 % 64, 0x80 + n / 64 % 64, 0x80 + n % 64]

def utf8Encode (cs : List Char) : List Nat :=
  (cs.map utf8EncodeChar).flatten

def isCont (b : Nat) : Bool := 0x80 ≤ b && b ≤ 0xBF

/-- One UTF-8 sequence from the front of the byte list, with the standard
validity checks (continuation bytes, overlong forms, surrogates, range);
consumes at least one byte on success. -/
def utf8DecodeOne : List Nat → Option (Char × List Nat)
  | [] => none
  | b :: rest =>
    if b < 0x80 then
      some (Char.ofNat b, rest)
    else if 0xC2 ≤ b && b ≤ 0xDF then
      match rest with
      | b1 :: rest2 =>
        if isCont b1 then
          some (Char.ofNat ((b - 0xC0) * 64 + (b1 - 0x80)), rest2)
        else none
      | [] => none
    else if 0xE0 ≤ b && b ≤ 0xEF then
      match rest with
      | b1 :: b2 :: rest3 =>
        let lo1 := if b = 0xE0 then 0xA0 else 0x80
        let hi1 := if b = 0xED then 0x9F else 0xBF
        if lo1 ≤ b1 && b1 ≤ hi1 && isCont b2 then
          some (Char.ofNat ((b - 0xE0) * 4096 + (b1 - 0x80) * 64 + (b2 - 0x80)), rest3)
        else none
      | _ => none
    else if 0xF0 ≤ b && b ≤ 0xF4 then
      match rest with
      | b1 :: b2 :: b3 :: rest4 =>
        let lo1 := if b = 0xF0 then 0x90 else 0x80
        let hi1 := if b = 0xF4 then 0x8F else 0xBF
        if lo1 ≤ b1 && b1 ≤ hi1 && isCont b2 && isCont b3 then
          some (Char.ofNat ((b - 0xF0) * 262144 + (b1 - 0x80) * 4096 + (b2 - 0x80) * 64 +
            (b3 - 0x80)), rest4)
        else none
      | _ => none
    else none

/-- Decode a whole byte list; the fuel only bounds the recursion and
`length + 1` always suffices since every sequence consumes a byte. -/
def utf8DecodeAux : Nat → List Nat → Option (List Char)
  | 0, _ => none
  | _ + 1, [] => some []
  | fuel + 1, b :: rest =>
    match utf8DecodeOne (b :: rest) with
    | some (c, rest2) => (utf8DecodeAux fuel rest2).map (fun cs => c :: cs)
    | none => none

/-- Strict UTF-8 decoding, as `bytes.decode("utf-8")`: `none` models
`UnicodeDecodeError`. -/
def utf8Decode (bs : List Nat) : Option (List Char) :=
  utf8DecodeAux (bs.length + 1) bs

/-- The JSON values the protocol exchanges (numbers are integers). -/
inductive Json where
  | null
  | bool (b : Bool)
  | num (n : Int)
  | str (s : String)
  | arr (elems : List Json)
  | obj (members : List (String × Json))

def digitChar (d : Nat) : Char := Char.ofNat (48 + d)

/-- Decimal digits, most significant first; the fuel dominates the digit
count (`n + 1` always suffices, `natCharsAux_enough`). -/
def natCharsAux : Nat → Nat → List Char
  | 0, _ => []
  | fuel + 1, n =>
    if n < 10 then [digitChar n]
    else natCharsAux fuel (n / 10) ++ [digitChar (n % 10)]

/-- Decimal digits of a natural number, most significant first. -/
def natChars (n : Nat) : List Char := natCharsAux (n + 1) n

def intChars (n : Int) : List Char :=
  if n < 0 then '-' :: natChars n.natAbs else natChars n.toNat

def hexDigitChar (d : Nat) : Char :=
  if d < 10 then Char.ofNat (48 + d) else Char.ofNat (87 + d)

def hex4 (n : Nat) : List Char :=
  [hexDigitChar (n / 4096 % 16), hexDigitChar (n / 256 % 16),
   hexDigitChar (n / 16 % 16), hexDigitChar (n % 16)]

/-- One character of `json.dumps` output (default `ensure_ascii=True`). -/
def escapeChar (c : Char) : List Char :=
  if c = quoteChar then [backslashChar, quoteChar]
  else if c = backslashChar then [backslashChar, backslashChar]
  else if c = Char.ofNat 10 then [backslashChar, 'n']
  else if c = Char.ofNat 13 then [backslashChar, 'r']
  else if c = Char.ofNat 9 then [backslashChar, 't']
  else if c = Char.ofNat 8 then [backslashChar, 'b']
  else if c = Char.ofNat 12 then [backslashChar, 'f']
  else if c.toNat < 0x20 then backslashChar :: 'u' :: hex4 c.toNat
  else if c.toNat < 0x7F then [c]
  else if c.toNat < 0x10000 then backslashChar :: 'u' :: hex4 c.toNat
  else
    backslashChar :: 'u' :: hex4 (0xD800 + (c.toNat - 0x10000) / 1024) ++
      backslashChar :: 'u' :: hex4 (0xDC00 + (c.toNat - 0x10000) % 1024)

def renderString (s : String) : List Char :=
  quoteChar :: (s.data.map escapeChar).flatten ++ [quoteChar]

mutual

/-- `json.dumps(value, separators=(",", ":"))`, character by character. -/
def render : Json → List Char
  | .null => "null".data
  | .bool true => "true".data
  | .bool false => "false".data
  | .num n => intChars n
  | .str s => renderString s
  | .arr xs => '[' :: renderElems xs ++ [']']
  | .obj ms => lbrace :: renderMembers ms ++ [rbrace]

def renderElems : List Json → List Char
  | [] => []
  | [x] => render x
  | x :: y :: xs => render x ++ ',' :: renderElems (y :: xs)

def renderMembers : List (String × Json) → List Char
  | [] => []
  | [(k, v)] => renderString k ++ ':' :: render v
  | (k, v) :: m :: ms => renderString k ++ ':' :: render v ++ ',' :: renderMembers (m :: ms)

end

def isWs (c : Char) : Bool :=
  c = ' ' || c = Char.ofNat 9 || c = Char.ofNat 10 || c = Char.ofNat 13

def skipWs : List Char → List Char
  | [] => []
  | c :: cs => if isWs c then skipWs cs else c :: cs

def isDigit (c : Char) : Bool := 48 ≤ c.toNat && c.toNat ≤ 57

def digitsVal (ds : List Char) : Nat :=
  ds.foldl (fun a c => 10 * a + (c.toNat - 48)) 0

/-- Leading decimal numeral per the JSON grammar: at least one digit, no
leading zero unless the numeral is exactly `0`. -/
def parseNat (cs : List Char) : Option (Nat × List Char) :=
  match cs.takeWhile isDigit, cs.dropWhile isDigit with
  | [], _ => none
  | [d], rest => some (d.toNat - 48, rest)
  | d :: d2 :: ds, rest =>
    if d = '0' then none else some (digitsVal (d :: d2 :: ds), rest)

def parseNumber (cs : List Char) : Option (Int × List Char) :=
  match cs with
  | [] => none
  | c :: rest =>
    if c = '-' then (parseNat rest).map (fun p => (-(p.1 : Int), p.2))
    else (parseNat cs).map (fun p => ((p.1 : Int), p.2))

def hexVal (c : Char) : Option Nat :=
  if 48 ≤ c.toNat && c.toNat ≤ 57 then some (c.toNat - 48)
  else if 97 ≤ c.toNat && c.toNat ≤ 102 then some (c.toNat - 87)
  else if 65 ≤ c.toNat && c.toNat ≤ 70 then some (c.toNat - 55)
  else none

def hex4Val (a b c d : Char) : Option Nat :=
  match hexVal a, hexVal b, hexVal c, hexVal d with
  | some x, some y, some z, some w => some (4096 * x + 256 * y + 16 * z + w)
  | _, _, _, _ => none

def escDecode (c : Char) : Option Char :=
  if c = quoteChar then some quoteChar
  else if c = backslashChar then some backslashChar
  else if c = '/' then some '/'
  else if c = 'b' then some (Char.ofNat 8)
  else if c = 'f' then some (Char.ofNat 12)
  else if c = 'n' then some (Char.ofNat 10)
  else if c = 'r' then some (Char.ofNat 13)
  else if c = 't' then some (Char.ofNat 9)
  else none

/-- One escape sequence right after a backslash: a short escape or a
\x5cu escape (surrogate pairs combined, lone surrogates rejected);
consumes at least one character on success. -/
def parseEscape : List Char → Option (Char × List Char)
  | [] => none
  | e :: rest2 =>
    if e = 'u' then
      match rest2 with
      | h1 :: h2 :: h3 :: h4 :: rest3 =>
        match hex4Val h1 h2 h3 h4 with
        | none => none
        | some code =>
          if 0xD800 ≤ code && code ≤ 0xDBFF then
            match rest3 with
            | s1 :: s2 :: g1 :: g2 :: g3 :: g4 :: rest4 =>
              if s1 = backslashChar && s2 = 'u' then
                match hex4Val g1 g2 g3 g4 with
                | none => none
                | some lo =>
                  if 0xDC00 ≤ lo && lo ≤ 0xDFFF then
                    some (Char.ofNat (0x10000 + (code - 0xD800) * 1024 + (lo - 0xDC00)), rest4)
                  else none
              else none
            | _ => none
          else if 0xDC00 ≤ code && code ≤ 0xDFFF then none
          else some (Char.ofNat code, rest3)
      | _ => none
    else
      match escDecode e with
      | some d => some (d, rest2)
      | none => none

/-- Body of a JSON string after the opening quote: raw characters and
escapes up to the closing quote; raw control characters are rejected as in
strict-mode `json.loads`.  The fuel only bounds the recursion; every step
consumes at least one character, so `length + 1` always suffices. -/
def parseStringAux : Nat → List Char → Option (List Char × List Char)
  | 0, _ => none
  | _ + 1, [] => none
  | fuel + 1, c :: rest =>
    if c = quoteChar then some ([], rest)
    else if c = backslashChar then
      match parseEscape rest with
      | some (d, rest2) => (parseStringAux fuel rest2).map (fun p => (d :: p.1, p.2))
      | none => none
    else if c.toNat < 0x20 then none
    else (parseStringAux fuel rest).map (fun p => (c :: p.1, p.2))

/-- The scanner for a JSON string body. -/
def parseStringChars (cs : List Char) : Option (List Char × List Char) :=
  parseStringAux (cs.length + 1) cs

/-- `dict` construction order for duplicate keys: the first occurrence keeps
its position, a later occurrence overwrites the value. -/
def insertMember (ms : List (String × Json)) (kv : String × Json) : List (String × Json) :=
  match ms with
  | [] => [kv]
  | (k, v) :: rest =>
    if k = kv.1 then (k, kv.2) :: rest else (k, v) :: insertMember rest kv

def membersToDict (ms : List (String × Json)) : List (String × Json) :=
  ms.foldl insertMember []

mutual

/-- One JSON value (with leading whitespace), fuel-bounded; the model of the
recursive descent inside `json.loads`. -/
def parseValue : Nat → List Char → Option (Json × List Char)
  | 0, _ => none
  | fuel + 1, cs =>
    match skipWs cs with
    | [] => none
    | c :: rest =>
      if c = lbrace then
        match parseMembersFirst fuel rest with
        | some (ms, rest2) => some (.obj (membersToDict ms), rest2)
        | none => none
      else if c = '[' then
        match parseElemsFirst fuel rest with
        | some (xs, rest2) => some (.arr xs, rest2)
        | none => none
      else if c = quoteChar then
        match parseStringChars rest with
        | some (body, rest2) => some (.str (String.mk body), rest2)
        | none => none
      else if c = 't' then
        match rest with
        | 'r' :: 'u' :: 'e' :: rest2 => some (.bool true, rest2)
        | _ => none
      else if c = 'f' then
        match rest with
        | 'a' :: 'l' :: 's' :: 'e' :: rest2 => some (.bool false, rest2)
        | _ => none
      else if c = 'n' then
        match rest with
        | 'u' :: 'l' :: 'l' :: rest2 => some (.null, rest2)
        | _ => none
      else
        match parseNumber (c :: rest) with
        | some (n, rest2) => some (.num n, rest2)
        | none => none

/-- Array elements right after `[`. -/
def parseElemsFirst : Nat → List Char → Option (List Json × List Char)
  | 0, _ => none
  | fuel + 1, cs =>
    match skipWs cs with
    | [] => none
    | c :: rest =>
      if c = ']' then some ([], rest)
      else
        match parseValue fuel (c :: rest) with
        | some (x, rest2) =>
          match parseElemsRest fuel rest2 with
          | some (xs, rest3) => some (x :: xs, rest3)
          | none => none
        | none => none

/-- Continuation of an array: `,` value … or `]`. -/
def parseElemsRest : Nat → List Char → Option (List Json × List Char)
  | 0, _ => none
  | fuel + 1, cs =>
    match skipWs cs with
    | [] => none
    | c :: rest =>
      if c = ']' then some ([], rest)
      else if c = ',' then
        match parseValue fuel rest with
        | some (x, rest2) =>
          match parseElemsRest fuel rest2 with
          | some (xs, rest3) => some (x :: xs, rest3)
          | none => none
        | none => none
      else none

/-- One `"key": value` object member. -/
def parseMember : Nat → List Char → Option ((String × Json) × List Char)
  | 0, _ => none
  | fuel + 1, cs =>
    match skipWs cs with
    | [] => none
    | c :: rest =>
      if c = quoteChar then
        match parseStringChars rest with
        | some (key, rest2) =>
          match skipWs rest2 with
          | [] => none
          | c2 :: rest3 =>
            if c2 = ':' then
              match parseValue fuel rest3 with
              | some (v, rest4) => some ((String.mk key, v), rest4)
              | none => none
            else none
        | none => none
      else none

/-- Object members right after the opening brace. -/
def parseMembersFirst : Nat → List Char → Option (List (String × Json) × List Char)
  | 0, _ => none
  | fuel + 1, cs =>
    match skipWs cs with
    | [] => none
    | c :: rest =>
      if c = rbrace then some ([], rest)
      else
        match parseMember fuel (c :: rest) with
        | some (kv, rest2) =>
          match parseMembersRest fuel rest2 with
          | some (ms, rest3) => some (kv :: ms, rest3)
          | none => none
        | none => none

/-- Continuation of an object: `,` member … or the closing brace. -/
def parseMembersRest : Nat → List Char → Option (List (String × Json) × List Char)
  | 0, _ => none
  | fuel + 1, cs =>
    match skipWs cs with
    | [] => none
    | c :: rest =>
      if c = rbrace then some ([], rest)
      else if c = ',' then
        match parseMember fuel rest with
        | some (kv, rest2) =>
          match parseMembersRest fuel rest2 with
          | some (ms, rest3) => some (kv :: ms, rest3)
          | none => none
        | none => none
      else none

end

/-- `json.loads` on decoded text: one value, optionally surrounded by
whitespace, with nothing after it.  The fuel `2 * length + 1` dominates the
recursion depth of any value the renderer can produce (`size_le_two_mul`
below) and is inert for `json.loads` itself, which has no fuel. -/
def loads (cs : List Char) : Option Json :=
  match parseValue (2 * cs.length + 1) cs with
  | some (v, rest) => if skipWs rest = [] then some v else none
  | none => none

/-- `json.dumps(j, separators=(",", ":")).encode("utf-8")`. -/
def dumps (j : Json) : List Nat := utf8Encode (render j)

end PyJson

namespace XenoConst

/-!
Wire constants shared by the two protocol variants, translated from
`custom_components/xenopixel/xenopixel_ble/const.py`.  The library variant
`src/xenopixel_ble/protocol.py` imports the same names from its own const
module, which is not part of the snapshot; its values are modelled from the
spec's bit-exact fixed literals (spec sections 4.1 and 6), which coincide
with the integration const file below.
-/

def MSG_TYPE_COMMAND : Int := 2

def MSG_TYPE_STATUS : Int := 3

def PARAM_POWER_ON : String := "PowerOn"

def PARAM_POWER : String := "Power"

def PARAM_BACKGROUND_COLOR : String := "BackgroundColor"

def PARAM_BRIGHTNESS : String := "Brightness"

def PARAM_HANDSHAKE : String := "HandShake"

def HANDSHAKE_VALUE : String := "HelloDamien"

def PARAM_AUTHORIZE : String := "Authorize"

def AUTHORIZE_VALUE : String := "SaberOfDamien"

def AUTHORIZE_RESPONSE : String := "AccessAllowed"

def PARAM_HARDWARE_VERSION : String := "HardwareVersion"

def PARAM_SOFTWARE_VERSION : String := "SoftwareVersion"

def PARAM_CURRENT_SOUND_PACKAGE : String := "CurrentSoundPackageNo"

def PARAM_TOTAL_SOUND_PACKAGES : String := "TotalSoundPackage"

def PARAM_CURRENT_LIGHT_EFFECT : String := "CurrentLightEffect"

def LIGHT_EFFECT_MIN : Int := 1

def LIGHT_EFFECT_MAX : Int := 9

def PARAM_VOLUME : String := "Volume"

def PARAM_CLASH : String := "Clash"

def PARAM_BLASTER : String := "Blaster"

def PARAM_FORCE : String := "Force"

def PARAM_LOCKUP : String := "Lockup"

def PARAM_DRAG : String := "Drag"

def PARAM_CURRENT_LOCKUP : String := "CurrentLockup"

def PARAM_TOTAL_LOCKUP : String := "TotalLockup"

def PARAM_CURRENT_DRAG : String := "CurrentDrag"

def PARAM_TOTAL_DRAG : String := "TotalDrag"

def PARAM_CURRENT_BLASTER : String := "CurrentBlaster"

def PARAM_TOTAL_BLASTER : String := "TotalBlaster"

def PARAM_CURRENT_CLASH : String := "CurrentClash"

def PARAM_TOTAL_CLASH : String := "TotalClash"

def PARAM_CURRENT_FORCE : String := "CurrentForce"

def PARAM_TOTAL_FORCE : String := "TotalForce"

def PARAM_TOTAL_LIGHT_EFFECTS : String := "TotalLightEffect"

def PARAM_CURRENT_POST_OFF : String := "CurrentPostOff"

def PARAM_TOTAL_POST_OFF : String := "TotalPostOff"

def PARAM_CURRENT_MODE : String := "CurrentMode"

def PARAM_TOTAL_MODE : String := "TotalMode"

def PARAM_PREON_TIME : String := "PreonTime"

end XenoConst

/-- The `dict` returned by `decode_response`: keys `type` and `params`. -/
structure Response where
  type : PyJson.Json
  params : List (String × PyJson.Json)

namespace XenoBLE

/-!
Embedding of the library variant `src/xenopixel_ble/protocol.py`
(class `XenopixelProtocol` and dataclass `XenopixelState`).
-/

open PyJson XenoConst

/-- Dataclass `XenopixelState` from `src/xenopixel_ble/protocol.py`.
Fields hold JSON values, as Python's dynamic `setattr` stores whatever the
wire carried; the defaults are the dataclass defaults. -/
structure XenopixelState where
  is_on : Json := .bool false
  power_level : Json := .num 0
  red : Json := .num 255
  green : Json := .num 255
  blue : Json := .num 255
  brightness : Json := .num 100
  volume : Json := .num 0
  sound_font : Json := .num 0
  total_sound_fonts : Json := .num 0
  light_effect : Json := .num 0
  total_light_effects : Json := .num 0
  lockup : Json := .bool false
  current_lockup : Json := .num 0
  total_lockup : Json := .num 0
  drag : Json := .bool false
  current_drag : Json := .num 0
  total_drag : Json := .num 0
  current_blaster : Json := .num 0
  total_blaster : Json := .num 0
  current_clash : Json := .num 0
  total_clash : Json := .num 0
  current_force : Json := .num 0
  total_force : Json := .num 0
  current_post_off : Json := .num 0
  total_post_off : Json := .num 0
  current_mode : Json := .num 0
  total_mode : Json := .num 0
  preon_time : Json := .num 0
  hardware_version : Json := .str ""
  software_version : Json := .str ""

def encode_handshake : List Nat :=
  dumps (.arr [.num MSG_TYPE_COMMAND, .obj [(PARAM_HANDSHAKE, .str HANDSHAKE_VALUE)]])

def encode_authorize : List Nat :=
  dumps (.arr [.num MSG_TYPE_COMMAND, .obj [(PARAM_AUTHORIZE, .str AUTHORIZE_VALUE)]])

def encode_power_on : List Nat :=
  dumps (.arr [.num MSG_TYPE_COMMAND, .obj [(PARAM_POWER_ON, .bool true)]])

def encode_power_off : List Nat :=
  dumps (.arr [.num MSG_TYPE_COMMAND, .obj [(PARAM_POWER_ON, .bool false)]])

def encode_color (red green blue : Int) : List Nat :=
  let red := max 0 (min 255 red)
  let green := max 0 (min 255 green)
  let blue := max 0 (min 255 blue)
  dumps (.arr [.num MSG_TYPE_COMMAND,
    .obj [(PARAM_BACKGROUND_COLOR, .arr [.num red, .num green, .num blue])]])

def encode_brightness (brightness : Int) : List Nat :=
  let brightness := max 0 (min 100 brightness)
  dumps (.arr [.num MSG_TYPE_COMMAND, .obj [(PARAM_BRIGHTNESS, .num brightness)]])

def encode_volume (volume : Int) : List Nat :=
  let volume := max 0 (min 100 volume)
  dumps (.arr [.num MSG_TYPE_COMMAND, .obj [(PARAM_VOLUME, .num volume)]])

def encode_sound_font (font_no : Int) : List Nat :=
  dumps (.arr [.num MSG_TYPE_COMMAND, .obj [(PARAM_CURRENT_SOUND_PACKAGE, .num font_no)]])

def encode_light_effect (effect : Int) : List Nat :=
  let effect := max LIGHT_EFFECT_MIN (min LIGHT_EFFECT_MAX effect)
  dumps (.arr [.num MSG_TYPE_COMMAND, .obj [(PARAM_CURRENT_LIGHT_EFFECT, .num effect)]])

/-- `parsed[1] if isinstance(parsed[1], dict) else {}`. -/
def pyParams : Json → List (String × Json)
  | .obj ms => ms
  | _ => []

/-- `XenopixelProtocol.decode_response`: UTF-8 decode, `json.loads`, require
a list of length at least two, keep element 0 verbatim as `type` and
element 1 as `params` when it is an object. -/
def decode_response (data : List Nat) : Option Response :=
  match utf8Decode data with
  | none => none
  | some text =>
    match loads text with
    | none => none
    | some (.arr (e0 :: e1 :: _)) => some ⟨e0, pyParams e1⟩
    | some _ => none

/-- `_PARAM_TO_FIELD`, in source order. -/
def PARAM_TO_FIELD : List (String × String) :=
  [(PARAM_POWER_ON, "is_on"),
   (PARAM_POWER, "power_level"),
   (PARAM_BRIGHTNESS, "brightness"),
   (PARAM_VOLUME, "volume"),
   (PARAM_CURRENT_SOUND_PACKAGE, "sound_font"),
   (PARAM_TOTAL_SOUND_PACKAGES, "total_sound_fonts"),
   (PARAM_CURRENT_LIGHT_EFFECT, "light_effect"),
   (PARAM_TOTAL_LIGHT_EFFECTS, "total_light_effects"),
   (PARAM_LOCKUP, "lockup"),
   (PARAM_CURRENT_LOCKUP, "current_lockup"),
   (PARAM_TOTAL_LOCKUP, "total_lockup"),
   (PARAM_DRAG, "drag"),
   (PARAM_CURRENT_DRAG, "current_drag"),
   (PARAM_TOTAL_DRAG, "total_drag"),
   (PARAM_CURRENT_BLASTER, "current_blaster"),
   (PARAM_TOTAL_BLASTER, "total_blaster"),
   (PARAM_CURRENT_CLASH, "current_clash"),
   (PARAM_TOTAL_CLASH, "total_clash"),
   (PARAM_CURRENT_FORCE, "current_force"),
   (PARAM_TOTAL_FORCE, "total_force"),
   (PARAM_CURRENT_POST_OFF, "current_post_off"),
   (PARAM_TOTAL_POST_OFF, "total_post_off"),
   (PARAM_CURRENT_MODE, "current_mode"),
   (PARAM_TOTAL_MODE, "total_mode"),
   (PARAM_PREON_TIME, "preon_time"),
   (PARAM_HARDWARE_VERSION, "hardware_version"),
   (PARAM_SOFTWARE_VERSION, "software_version")]

/-- `setattr(state, name, v)` for the field names `_PARAM_TO_FIELD` uses;
an unlisted name leaves the state unchanged (no map entry produces one). -/
def setField (st : XenopixelState) (name : String) (v : Json) : XenopixelState :=
  if name = "is_on" then { st with is_on := v }
  else if name = "power_level" then { st with power_level := v }
  else if name = "brightness" then { st with brightness := v }
  else if name = "volume" then { st with volume := v }
  else if name = "sound_font" then { st with sound_font := v }
  else if name = "total_sound_fonts" then { st with total_sound_fonts := v }
  else if name = "light_effect" then { st with light_effect := v }
  else if name = "total_light_effects" then { st with total_light_effects := v }
  else if name = "lockup" then { st with lockup := v }
  else if name = "current_lockup" then { st with current_lockup := v }
  else if name = "total_lockup" then { st with total_lockup := v }
  else if name = "drag" then { st with drag := v }
  else if name = "current_drag" then { st with current_drag := v }
  else if name = "total_drag" then { st with total_drag := v }
  else if name = "current_blaster" then { st with current_blaster := v }
  else if name = "total_blaster" then { st with total_blaster := v }
  else if name = "current_clash" then { st with current_clash := v }
  else if name = "total_clash" then { st with total_clash := v }
  else if name = "current_force" then { st with current_force := v }
  else if name = "total_force" then { st with total_force := v }
  else if name = "current_post_off" then { st with current_post_off := v }
  else if name = "total_post_off" then { st with total_post_off := v }
  else if name = "current_mode" then { st with current_mode := v }
  else if name = "total_mode" then { st with total_mode := v }
  else if name = "preon_time" then { st with preon_time := v }
  else if name = "hardware_version" then { st with hardware_version := v }
  else if name = "software_version" then { st with software_version := v }
  else st

/-- `getattr(state, name)`, additionally exposing the three color channels;
an unknown name reads as `null` (never consulted). -/
def getField (st : XenopixelState) (name : String) : Json :=
  if name = "is_on" then st.is_on
  else if name = "power_level" then st.power_level
  else if name = "red" then st.red
  else if name = "green" then st.green
  else if name = "blue" then st.blue
  else if name = "brightness" then st.brightness
  else if name = "volume" then st.volume
  else if name = "sound_font" then st.sound_font
  else if name = "total_sound_fonts" then st.total_sound_fonts
  else if name = "light_effect" then st.light_effect
  else if name = "total_light_effects" then st.total_light_effects
  else if name = "lockup" then st.lockup
  else if name = "current_lockup" then st.current_lockup
  else if name = "total_lockup" then st.total_lockup
  else if name = "drag" then st.drag
  else if name = "current_drag" then st.current_drag
  else if name = "total_drag" then st.total_drag
  else if name = "current_blaster" then st.current_blaster
  else if name = "total_blaster" then st.total_blaster
  else if name = "current_clash" then st.current_clash
  else if name = "total_clash" then st.total_clash
  else if name = "current_force" then st.current_force
  else if name = "total_force" then st.total_force
  else if name = "current_post_off" then st.current_post_off
  else if name = "total_post_off" then st.total_post_off
  else if name = "current_mode" then st.current_mode
  else if name = "total_mode" then st.total_mode
  else if name = "preon_time" then st.preon_time
  else if name = "hardware_version" then st.hardware_version
  else if name = "software_version" then st.software_version
  else .null

/-- `_apply_color`: only a list of length at least three updates the three
channels, element by element; anything else leaves the state untouched. -/
def applyColor (st : XenopixelState) (color : Json) : XenopixelState :=
  match color with
  | .arr (r :: g :: b :: _) => { st with red := r, green := g, blue := b }
  | _ => st

/-- The `for param_name, field_name in _PARAM_TO_FIELD.items()` loop of
`parse_state`, over an arbitrary prefix of the mapping table. -/
def applyMap (params : List (String × Json)) (table : List (String × String))
    (st : XenopixelState) : XenopixelState :=
  table.foldl (fun st kv =>
    match List.lookup kv.1 params with
    | some v => setField st kv.2 v
    | none => st) st

/-- `XenopixelProtocol.parse_state`: on a non-`None` response, build a fresh
default `XenopixelState`, copy every mapped parameter present in `params`
into its field, then give `BackgroundColor` its special treatment. -/
def parse_state (response : Option Response) : Option XenopixelState :=
  match response with
  | none => none
  | some resp =>
    let st := applyMap resp.params PARAM_TO_FIELD {}
    let st :=
      match List.lookup PARAM_BACKGROUND_COLOR resp.params with
      | some color => applyColor st color
      | none => st
    some st

end XenoBLE

namespace XenoCC

/-!
Embedding of the integration variant
`custom_components/xenopixel/xenopixel_ble/protocol.py`, restricted to the
interface it shares with the library variant (the encoders below and
`decode_response`); its constants come from
`custom_components/xenopixel/xenopixel_ble/const.py`.
-/

open PyJson XenoConst

def encode_handshake : List Nat :=
  dumps (.arr [.num MSG_TYPE_COMMAND, .obj [(PARAM_HANDSHAKE, .str HANDSHAKE_VALUE)]])

def encode_authorize : List Nat :=
  dumps (.arr [.num MSG_TYPE_COMMAND, .obj [(PARAM_AUTHORIZE, .str AUTHORIZE_VALUE)]])

def encode_power_on : List Nat :=
  dumps (.arr [.num MSG_TYPE_COMMAND, .obj [(PARAM_POWER_ON, .bool true)]])

def encode_power_off : List Nat :=
  dumps (.arr [.num MSG_TYPE_COMMAND, .obj [(PARAM_POWER_ON, .bool false)]])

def encode_color (red green blue : Int) : List Nat :=
  let red := max 0 (min 255 red)
  let green := max 0 (min 255 green)
  let blue := max 0 (min 255 blue)
  dumps (.arr [.num MSG_TYPE_COMMAND,
    .obj [(PARAM_BACKGROUND_COLOR, .arr [.num red, .num green, .num blue])]])

def encode_brightness (brightness : Int) : List Nat :=
  let brightness := max 0 (min 100 brightness)
  dumps (.arr [.num MSG_TYPE_COMMAND, .obj [(PARAM_BRIGHTNESS, .num brightness)]])

def encode_volume (volume : Int) : List Nat :=
  let volume := max 0 (min 100 volume)
  dumps (.arr [.num MSG_TYPE_COMMAND, .obj [(PARAM_VOLUME, .num volume)]])

def encode_sound_font (font_no : Int) : List Nat :=
  dumps (.arr [.num MSG_TYPE_COMMAND, .obj [(PARAM_CURRENT_SOUND_PACKAGE, .num font_no)]])

def encode_light_effect (effect : Int) : List Nat :=
  let effect := max LIGHT_EFFECT_MIN (min LIGHT_EFFECT_MAX effect)
  dumps (.arr [.num MSG_TYPE_COMMAND, .obj [(PARAM_CURRENT_LIGHT_EFFECT, .num effect)]])

def pyParams : Json → List (String × Json)
  | .obj ms => ms
  | _ => []

/-- The integration variant's `decode_response` (textually identical logic
to the library variant's). -/
def decode_response (data : List Nat) : Option Response :=
  match utf8Decode data with
  | none => none
  | some text =>
    match loads text with
    | none => none
    | some (.arr (e0 :: e1 :: _)) => some ⟨e0, pyParams e1⟩
    | some _ => none

end XenoCC

namespace SaberTool

/-!
Embedding of `send_command` from `tools/test_saber.py` (lines 192-259) as
the trace of GATT operations it performs.  The script registers
notification handlers on both characteristics, waits up to ten seconds for
a status notification and for the `AccessAllowed` authorization
notification, and — crucially — on timeout prints a warning and proceeds:
the command write happens on either branch.  `deviceReady` models whether
both awaited notifications arrived before the timeout; it influences only
console output, never the GATT trace.
-/

inductive GattChar where
  | primary
  | alt
deriving Repr, DecidableEq

inductive BleAction where
  | startNotify (c : GattChar)
  | writeChar (c : GattChar) (data : List Nat) (withResponse : Bool)
  | stopNotify (c : GattChar)
deriving Repr, DecidableEq

/-- The GATT operations `send_command(command, use_alt)` performs, in
order, once connected. -/
def send_command (command : List Char) (use_alt : Bool) (deviceReady : Bool) : List BleAction :=
  [BleAction.startNotify .primary,
   BleAction.startNotify .alt,
   BleAction.writeChar (if use_alt then .alt else .primary)
     (PyJson.utf8Encode command) (!use_alt),
   BleAction.stopNotify .primary,
   BleAction.stopNotify .alt]

end SaberTool

namespace PyJson

/-- The bytes of an ASCII Python literal such as `b"[2]"`. -/
def pyBytes (s : String) : List Nat := utf8Encode s.data

/-- Characters that render and parse as themselves inside a JSON string:
printable ASCII other than the quote and the backslash. -/
def plainChar (c : Char) : Bool :=
  (0x20 ≤ c.toNat && c.toNat < 0x7F) && !(c == quoteChar) && !(c == backslashChar)

def nonDigitStart : List Char → Bool
  | [] => true
  | c :: _ => !isDigit c

/-- The shape `decode_response` requires: a list of length at least two. -/
def isWireArray : Json → Bool
  | .arr (_ :: _ :: _) => true
  | _ => false

/-- Whether a JSON value is an object (`isinstance(x, dict)`). -/
def isObj : Json → Bool
  | .obj _ => true
  | _ => false

/-- A string whose every character renders and parses as itself. -/
def plainStr (s : String) : Bool := s.data.all plainChar

end PyJson

namespace XenoBLE

open PyJson

/-- The guard of `_apply_color`: a list of length at least three. -/
def colorOk : Json → Bool
  | .arr (_ :: _ :: _ :: _) => true
  | _ => false

/-- The field names `_PARAM_TO_FIELD` can pass to `setattr`. -/
def FIELDS : List String := PARAM_TO_FIELD.map Prod.snd

theorem getField_setField_ne (st : XenopixelState) (m n : String) (v : Json)
    (hmem : m ∈ FIELDS) (h : ¬ n = m) :
    getField (setField st m v) n = getField st n := by
  simp only [FIELDS, PARAM_TO_FIELD, XenoConst.PARAM_POWER_ON, XenoConst.PARAM_POWER,
    XenoConst.PARAM_BRIGHTNESS, XenoConst.PARAM_VOLUME, XenoConst.PARAM_CURRENT_SOUND_PACKAGE,
    XenoConst.PARAM_TOTAL_SOUND_PACKAGES, XenoConst.PARAM_CURRENT_LIGHT_EFFECT,
    XenoConst.PARAM_TOTAL_LIGHT_EFFECTS, XenoConst.PARAM_LOCKUP, XenoConst.PARAM_CURRENT_LOCKUP,
    XenoConst.PARAM_TOTAL_LOCKUP, XenoConst.PARAM_DRAG, XenoConst.PARAM_CURRENT_DRAG,
    XenoConst.PARAM_TOTAL_DRAG, XenoConst.PARAM_CURRENT_BLASTER, XenoConst.PARAM_TOTAL_BLASTER,
    XenoConst.PARAM_CURRENT_CLASH, XenoConst.PARAM_TOTAL_CLASH, XenoConst.PARAM_CURRENT_FORCE,
    XenoConst.PARAM_TOTAL_FORCE, XenoConst.PARAM_CURRENT_POST_OFF, XenoConst.PARAM_TOTAL_POST_OFF,
    XenoConst.PARAM_CURRENT_MODE, XenoConst.PARAM_TOTAL_MODE, XenoConst.PARAM_PREON_TIME,
    XenoConst.PARAM_HARDWARE_VERSION, XenoConst.PARAM_SOFTWARE_VERSION,
    List.map, List.mem_cons, List.not_mem_nil, or_false] at hmem
  repeat' rcases hmem with rfl | hmem
  all_goals simp only [setField, String.reduceEq, reduceIte]
  all_goals unfold getField
  all_goals rw [if_neg h, if_neg h]

theorem getField_setField_self (st : XenopixelState) (m : String) (v : Json)
    (hmem : m ∈ FIELDS) : getField (setField st m v) m = v := by
  simp only [FIELDS, PARAM_TO_FIELD, XenoConst.PARAM_POWER_ON, XenoConst.PARAM_POWER,
    XenoConst.PARAM_BRIGHTNESS, XenoConst.PARAM_VOLUME, XenoConst.PARAM_CURRENT_SOUND_PACKAGE,
    XenoConst.PARAM_TOTAL_SOUND_PACKAGES, XenoConst.PARAM_CURRENT_LIGHT_EFFECT,
    XenoConst.PARAM_TOTAL_LIGHT_EFFECTS, XenoConst.PARAM_LOCKUP, XenoConst.PARAM_CURRENT_LOCKUP,
    XenoConst.PARAM_TOTAL_LOCKUP, XenoConst.PARAM_DRAG, XenoConst.PARAM_CURRENT_DRAG,
    XenoConst.PARAM_TOTAL_DRAG, XenoConst.PARAM_CURRENT_BLASTER, XenoConst.PARAM_TOTAL_BLASTER,
    XenoConst.PARAM_CURRENT_CLASH, XenoConst.PARAM_TOTAL_CLASH, XenoConst.PARAM_CURRENT_FORCE,
    XenoConst.PARAM_TOTAL_FORCE, XenoConst.PARAM_CURRENT_POST_OFF, XenoConst.PARAM_TOTAL_POST_OFF,
    XenoConst.PARAM_CURRENT_MODE, XenoConst.PARAM_TOTAL_MODE, XenoConst.PARAM_PREON_TIME,
    XenoConst.PARAM_HARDWARE_VERSION, XenoConst.PARAM_SOFTWARE_VERSION,
    List.map, List.mem_cons, List.not_mem_nil, or_false] at hmem
  repeat' rcases hmem with rfl | hmem
  all_goals simp [setField, getField]

theorem getField_applyColor (st : XenopixelState) (c : Json) (m : String)
    (hmem : m ∈ FIELDS) : getField (applyColor st c) m = getField st m := by
  simp only [FIELDS, PARAM_TO_FIELD, XenoConst.PARAM_POWER_ON, XenoConst.PARAM_POWER,
    XenoConst.PARAM_BRIGHTNESS, XenoConst.PARAM_VOLUME, XenoConst.PARAM_CURRENT_SOUND_PACKAGE,
    XenoConst.PARAM_TOTAL_SOUND_PACKAGES, XenoConst.PARAM_CURRENT_LIGHT_EFFECT,
    XenoConst.PARAM_TOTAL_LIGHT_EFFECTS, XenoConst.PARAM_LOCKUP, XenoConst.PARAM_CURRENT_LOCKUP,
    XenoConst.PARAM_TOTAL_LOCKUP, XenoConst.PARAM_DRAG, XenoConst.PARAM_CURRENT_DRAG,
    XenoConst.PARAM_TOTAL_DRAG, XenoConst.PARAM_CURRENT_BLASTER, XenoConst.PARAM_TOTAL_BLASTER,
    XenoConst.PARAM_CURRENT_CLASH, XenoConst.PARAM_TOTAL_CLASH, XenoConst.PARAM_CURRENT_FORCE,
    XenoConst.PARAM_TOTAL_FORCE, XenoConst.PARAM_CURRENT_POST_OFF, XenoConst.PARAM_TOTAL_POST_OFF,
    XenoConst.PARAM_CURRENT_MODE, XenoConst.PARAM_TOTAL_MODE, XenoConst.PARAM_PREON_TIME,
    XenoConst.PARAM_HARDWARE_VERSION, XenoConst.PARAM_SOFTWARE_VERSION,
    List.map, List.mem_cons, List.not_mem_nil, or_false] at hmem
  repeat' rcases hmem with rfl | hmem
  all_goals (unfold applyColor; split <;> simp [getField])

/-- Fields whose map entries all miss `params` are untouched by the
`setattr` loop. -/
theorem applyMap_getField_absent (params : List (String × Json)) (f : String) :
    ∀ (l : List (String × String)) (st : XenopixelState),
      (∀ kv ∈ l, kv.2 ∈ FIELDS) →
      (∀ kv ∈ l, kv.2 = f → List.lookup kv.1 params = none) →
      getField (applyMap params l st) f = getField st f := by
  intro l
  induction l with
  | nil => intro st _ _; rfl
  | cons kv rest ih =>
    intro st hfld habs
    have hrest1 : ∀ p ∈ rest, p.2 ∈ FIELDS := fun p hp => hfld p (List.mem_cons_of_mem _ hp)
    have hrest2 : ∀ p ∈ rest, p.2 = f → List.lookup p.1 params = none :=
      fun p hp => habs p (List.mem_cons_of_mem _ hp)
    show getField (applyMap params (kv :: rest) st) f = getField st f
    unfold applyMap
    simp only [List.foldl_cons]
    cases hl : List.lookup kv.1 params with
    | none =>
      exact ih st hrest1 hrest2
    | some v =>
      by_cases hf : kv.2 = f
      · exact absurd hl (by rw [habs kv (List.mem_cons_self kv rest) hf]; simp)
      · exact (ih (setField st kv.2 v) hrest1 hrest2).trans
          (getField_setField_ne st kv.2 f v (hfld kv (List.mem_cons_self kv rest))
            (fun he => hf he.symm))

/-- A mapped parameter present in `params` lands verbatim in its field. -/
theorem applyMap_getField_present (params : List (String × Json)) (k f : String) (v : Json) :
    ∀ (l : List (String × String)) (st : XenopixelState),
      (∀ kv ∈ l, kv.2 ∈ FIELDS) →
      l.Pairwise (fun a b => a.2 ≠ b.2) →
      (k, f) ∈ l →
      List.lookup k params = some v →
      getField (applyMap params l st) f = v := by
  intro l
  induction l with
  | nil => intro st _ _ hmem; exact absurd hmem (List.not_mem_nil _)
  | cons kv rest ih =>
    intro st hfld hpw hmem hlk
    have hrest1 : ∀ p ∈ rest, p.2 ∈ FIELDS := fun p hp => hfld p (List.mem_cons_of_mem _ hp)
    have hpw1 := (List.pairwise_cons.mp hpw).1
    have hpw2 := (List.pairwise_cons.mp hpw).2
    unfold applyMap
    simp only [List.foldl_cons]
    rcases List.mem_cons.mp hmem with heq | htail
    · subst heq
      rw [show List.lookup (k, f).1 params = some v from hlk]
      have habs : ∀ p ∈ rest, p.2 = f → List.lookup p.1 params = none := by
        intro p hp hpf
        exact absurd hpf.symm (hpw1 p hp)
      have h2 := applyMap_getField_absent params f rest (setField st f v) hrest1 habs
      unfold applyMap at h2
      exact h2.trans
        (getField_setField_self st f v (by simpa using hfld (k, f) (List.mem_cons_self _ rest)))
    · cases hl : List.lookup kv.1 params with
      | none =>
        exact ih st hrest1 hpw2 htail hlk
      | some w =>
        exact ih (setField st kv.2 w) hrest1 hpw2 htail hlk

end XenoBLE

namespace XenoBLE

theorem pairwise_snd_inj : ∀ (l : List (String × String)),
    l.Pairwise (fun a b => a.2 ≠ b.2) →
    ∀ a b : String × String, a ∈ l → b ∈ l → a.2 = b.2 → a = b := by
  intro l
  induction l with
  | nil => intro _ a b ha; exact absurd ha (List.not_mem_nil a)
  | cons x xs ih =>
    intro hpw a b ha hb h2
    rcases List.mem_cons.mp ha with rfl | ha2
    · rcases List.mem_cons.mp hb with rfl | hb2
      · rfl
      · exact absurd h2 ((List.pairwise_cons.mp hpw).1 b hb2)
    · rcases List.mem_cons.mp hb with rfl | hb2
      · exact absurd h2.symm ((List.pairwise_cons.mp hpw).1 a ha2)
      · exact ih (List.pairwise_cons.mp hpw).2 a b ha2 hb2 h2

theorem pw_param_to_field : PARAM_TO_FIELD.Pairwise (fun a b => a.2 ≠ b.2) := by decide

theorem fields_all : ∀ kv ∈ PARAM_TO_FIELD, kv.2 ∈ FIELDS :=
  fun _ h => List.mem_map_of_mem Prod.snd h

theorem no_color_field :
    ∀ kv ∈ PARAM_TO_FIELD, kv.2 ≠ "red" ∧ kv.2 ≠ "green" ∧ kv.2 ≠ "blue" := by decide

end XenoBLE

/-- Shorthand: the state the `setattr` loop of `parse_state` produces. -/
theorem parse_state_eq (resp : Response) :
    XenoBLE.parse_state (some resp) =
      some (match List.lookup XenoConst.PARAM_BACKGROUND_COLOR resp.params with
        | some color => XenoBLE.applyColor (XenoBLE.applyMap resp.params XenoBLE.PARAM_TO_FIELD {}) color
        | none => XenoBLE.applyMap resp.params XenoBLE.PARAM_TO_FIELD {}) := rfl

/-- C3, amended: `parse_state` builds a fresh state from the dataclass
defaults on every call; a mapped parameter key absent from the message
leaves its field at the default value (not at any prior state's value),
and an absent `BackgroundColor` leaves the three channels at the default
255/255/255. -/
theorem claim_C3 :
    (∀ (resp : Response) (k f : String),
        (k, f) ∈ XenoBLE.PARAM_TO_FIELD →
        List.lookup k resp.params = none →
        (XenoBLE.parse_state (some resp)).map (fun s => XenoBLE.getField s f) =
          some (XenoBLE.getField {} f)) ∧
    (∀ resp : Response,
        List.lookup XenoConst.PARAM_BACKGROUND_COLOR resp.params = none →
        (XenoBLE.parse_state (some resp)).map (fun s => (s.red, s.green, s.blue)) =
          some (PyJson.Json.num 255, PyJson.Json.num 255, PyJson.Json.num 255)) := by
  constructor
  · intro resp k f hmem hlk
    have hf : f ∈ XenoBLE.FIELDS := XenoBLE.fields_all (k, f) hmem
    have habs : ∀ kv ∈ XenoBLE.PARAM_TO_FIELD, kv.2 = f →
        List.lookup kv.1 resp.params = none := by
      intro kv hkv h2
      have hkv2 : kv = (k, f) :=
        XenoBLE.pairwise_snd_inj _ XenoBLE.pw_param_to_field kv (k, f) hkv hmem h2
      rw [hkv2]
      exact hlk
    have hM := XenoBLE.applyMap_getField_absent resp.params f XenoBLE.PARAM_TO_FIELD {}
      XenoBLE.fields_all habs
    rw [parse_state_eq resp]
    cases hbc : List.lookup XenoConst.PARAM_BACKGROUND_COLOR resp.params with
    | none =>
      simp only [Option.map_some']
      rw [hM]
    | some c =>
      simp only [Option.map_some']
      rw [XenoBLE.getField_applyColor _ c f hf, hM]
  · intro resp hbc
    have habs : ∀ g, g = "red" ∨ g = "green" ∨ g = "blue" →
        ∀ kv ∈ XenoBLE.PARAM_TO_FIELD, kv.2 = g → List.lookup kv.1 resp.params = none := by
      intro g hg kv hkv h2
      rcases hg with rfl | rfl | rfl
      · exact absurd h2 (XenoBLE.no_color_field kv hkv).1
      · exact absurd h2 (XenoBLE.no_color_field kv hkv).2.1
      · exact absurd h2 (XenoBLE.no_color_field kv hkv).2.2
    have hr := XenoBLE.applyMap_getField_absent resp.params "red" XenoBLE.PARAM_TO_FIELD {}
      XenoBLE.fields_all (habs "red" (Or.inl rfl))
    have hg := XenoBLE.applyMap_getField_absent resp.params "green" XenoBLE.PARAM_TO_FIELD {}
      XenoBLE.fields_all (habs "green" (Or.inr (Or.inl rfl)))
    have hb := XenoBLE.applyMap_getField_absent resp.params "blue" XenoBLE.PARAM_TO_FIELD {}
      XenoBLE.fields_all (habs "blue" (Or.inr (Or.inr rfl)))
    rw [parse_state_eq resp, hbc]
    simp only [Option.map_some']
    show some (XenoBLE.getField _ "red", XenoBLE.getField _ "green", XenoBLE.getField _ "blue") = _
    rw [hr, hg, hb]
    rfl

/-- C3 witness: the first part of the amended theorem applied to the
message carrying only `Power`, whose absent `PowerOn` key reads back as the
default `false`. -/
theorem claim_C3_witness :
    ("PowerOn", "is_on") ∈ XenoBLE.PARAM_TO_FIELD ∧
    (XenoBLE.parse_state (some ⟨.num 3, [("Power", PyJson.Json.num 50)]⟩)).map
      (fun s => XenoBLE.getField s "is_on") = some (PyJson.Json.bool false) :=
  ⟨by decide,
   claim_C3.1 ⟨.num 3, [("Power", PyJson.Json.num 50)]⟩ "PowerOn" "is_on" (by decide) rfl⟩

/-- C3 counterexample: the claim as stated is false — applying
`[3,{"Power":50}]` after `[3,{"PowerOn":true,"Power":63}]` reverts `is_on`
to the default `false` even though `PowerOn` is absent from the second
message, because `parse_state` constructs a fresh state rather than merging
into the prior one. -/
theorem claim_C3_counterexample :
    (XenoBLE.parse_state (some ⟨.num 3,
        [("PowerOn", PyJson.Json.bool true), ("Power", PyJson.Json.num 63)]⟩)).map
      XenoBLE.XenopixelState.is_on = some (PyJson.Json.bool true) ∧
    (XenoBLE.parse_state (some ⟨.num 3, [("Power", PyJson.Json.num 50)]⟩)).map
      XenoBLE.XenopixelState.is_on = some (PyJson.Json.bool false) ∧
    List.lookup "PowerOn" [("Power", PyJson.Json.num 50)] = none ∧
    PyJson.Json.bool true ≠ PyJson.Json.bool false := by
  refine ⟨rfl, rfl, rfl, fun h => ?_⟩
  simp at h

/-- C7: a `BackgroundColor` value that is not a list of length at least
three leaves `_apply_color` a no-op (no channel is partially updated), and
at the `parse_state` level such a message produces exactly the state the
`setattr` loop alone produces. -/
theorem claim_C7 :
    (∀ (st : XenoBLE.XenopixelState) (c : PyJson.Json),
        XenoBLE.colorOk c = false → XenoBLE.applyColor st c = st) ∧
    (∀ (resp : Response) (c : PyJson.Json),
        List.lookup XenoConst.PARAM_BACKGROUND_COLOR resp.params = some c →
        XenoBLE.colorOk c = false →
        XenoBLE.parse_state (some resp) =
          some (XenoBLE.applyMap resp.params XenoBLE.PARAM_TO_FIELD {})) := by
  have h1 : ∀ (st : XenoBLE.XenopixelState) (c : PyJson.Json),
      XenoBLE.colorOk c = false → XenoBLE.applyColor st c = st := by
    intro st c hc
    unfold XenoBLE.applyColor
    split
    · exact absurd hc (by simp [XenoBLE.colorOk])
    · rfl
  refine ⟨h1, fun resp c hbc hc => ?_⟩
  rw [parse_state_eq resp, hbc]
  exact congrArg some (h1 _ c hc)

/-- C7 witness: the theorem applied to the two-element color array
`[255, 0]`, which changes nothing. -/
theorem claim_C7_witness :
    XenoBLE.colorOk (PyJson.Json.arr [.num 255, .num 0]) = false ∧
    XenoBLE.applyColor {} (PyJson.Json.arr [.num 255, .num 0]) = {} :=
  ⟨rfl, claim_C7.1 {} (PyJson.Json.arr [.num 255, .num 0]) rfl⟩

/-- C8: a full status dump carrying every recognized key populates every
field of the resulting state with exactly the carried value; in particular
`BackgroundColor:[255,153,18]` lands as red=255, green=153, blue=18. -/
theorem claim_C8 :
    XenoBLE.parse_state (some ⟨.num 3,
      [("HardwareVersion", PyJson.Json.str "XENOA04525CW13907"),
       ("SoftwareVersion", PyJson.Json.str "DMN_XENO_B_SV1.4.0"),
       ("PowerOn", PyJson.Json.bool false),
       ("Lockup", PyJson.Json.bool true),
       ("Drag", PyJson.Json.bool false),
       ("CurrentSoundPackageNo", PyJson.Json.num 0),
       ("TotalSoundPackage", PyJson.Json.num 34),
       ("CurrentLightEffect", PyJson.Json.num 0),
       ("TotalLightEffect", PyJson.Json.num 8),
       ("CurrentLockup", PyJson.Json.num 0),
       ("TotalLockup", PyJson.Json.num 1),
       ("CurrentDrag", PyJson.Json.num 0),
       ("TotalDrag", PyJson.Json.num 1),
       ("CurrentBlaster", PyJson.Json.num 0),
       ("TotalBlaster", PyJson.Json.num 3),
       ("CurrentClash", PyJson.Json.num 0),
       ("TotalClash", PyJson.Json.num 3),
       ("CurrentForce", PyJson.Json.num 0),
       ("TotalForce", PyJson.Json.num 2),
       ("CurrentPostOff", PyJson.Json.num 0),
       ("TotalPostOff", PyJson.Json.num 0),
       ("CurrentMode", PyJson.Json.num 0),
       ("TotalMode", PyJson.Json.num 8),
       ("PreonTime", PyJson.Json.num 0),
       ("Power", PyJson.Json.num 100),
       ("Volume", PyJson.Json.num 10),
       ("BackgroundColor", PyJson.Json.arr [.num 255, .num 153, .num 18]),
       ("Brightness", PyJson.Json.num 100)]⟩) =
    some { is_on := .bool false,
           power_level := .num 100,
           red := .num 255,
           green := .num 153,
           blue := .num 18,
           brightness := .num 100,
           volume := .num 10,
           sound_font := .num 0,
           total_sound_fonts := .num 34,
           light_effect := .num 0,
           total_light_effects := .num 8,
           lockup := .bool true,
           current_lockup := .num 0,
           total_lockup := .num 1,
           drag := .bool false,
           current_drag := .num 0,
           total_drag := .num 1,
           current_blaster := .num 0,
           total_blaster := .num 3,
           current_clash := .num 0,
           total_clash := .num 3,
           current_force := .num 0,
           total_force := .num 2,
           current_post_off := .num 0,
           total_post_off := .num 0,
           current_mode := .num 0,
           total_mode := .num 8,
           preon_time := .num 0,
           hardware_version := .str "XENOA04525CW13907",
           software_version := .str "DMN_XENO_B_SV1.4.0" } := rfl

/-- C10: the inbound merge applies no validation or clamping — every mapped
parameter value present in a message is stored verbatim in its field, and in
particular out-of-range `Brightness` and `Volume` integers (negative or
above 100) are stored exactly. -/
theorem claim_C10 :
    (∀ (resp : Response) (k f : String) (v : PyJson.Json),
        (k, f) ∈ XenoBLE.PARAM_TO_FIELD →
        List.lookup k resp.params = some v →
        (XenoBLE.parse_state (some resp)).map (fun s => XenoBLE.getField s f) = some v) ∧
    (∀ v : Int,
        XenoBLE.parse_state (some ⟨.num 3, [("Brightness", PyJson.Json.num v)]⟩) =
          some { brightness := PyJson.Json.num v }) ∧
    (∀ v : Int,
        XenoBLE.parse_state (some ⟨.num 3, [("Volume", PyJson.Json.num v)]⟩) =
          some { volume := PyJson.Json.num v }) := by
  refine ⟨?_, fun v => rfl, fun v => rfl⟩
  intro resp k f v hmem hlk
  have hf : f ∈ XenoBLE.FIELDS := XenoBLE.fields_all (k, f) hmem
  have hM := XenoBLE.applyMap_getField_present resp.params k f v XenoBLE.PARAM_TO_FIELD {}
    XenoBLE.fields_all XenoBLE.pw_param_to_field hmem hlk
  rw [parse_state_eq resp]
  cases hbc : List.lookup XenoConst.PARAM_BACKGROUND_COLOR resp.params with
  | none =>
    simp only [Option.map_some']
    rw [hM]
  | some c =>
    simp only [Option.map_some']
    rw [XenoBLE.getField_applyColor _ c f hf, hM]

/-- C10 witness: a `Brightness` of 999 — far outside `[0,100]` — is stored
verbatim. -/
theorem claim_C10_witness :
    ("Brightness", "brightness") ∈ XenoBLE.PARAM_TO_FIELD ∧
    (XenoBLE.parse_state (some ⟨.num 3, [("Brightness", PyJson.Json.num 999)]⟩)).map
      (fun s => XenoBLE.getField s "brightness") = some (PyJson.Json.num 999) :=
  ⟨by decide,
   claim_C10.1 ⟨.num 3, [("Brightness", PyJson.Json.num 999)]⟩ "Brightness" "brightness"
     (PyJson.Json.num 999) (by decide) rfl⟩

/-- C1, amended: `send_command` enables notifications on both
characteristics and waits up to ten seconds for device status and the
`AccessAllowed` authorization, but on timeout proceeds anyway — the GATT
trace is identical whether or not authorization arrived, it always contains
the command write, and no `UnauthorizedCommand` rejection exists. -/
theorem claim_C1 (command : List Char) (use_alt deviceReady : Bool) :
    SaberTool.send_command command use_alt deviceReady =
      SaberTool.send_command command use_alt true ∧
    SaberTool.BleAction.writeChar (if use_alt then .alt else .primary)
        (PyJson.utf8Encode command) (!use_alt) ∈
      SaberTool.send_command command use_alt deviceReady :=
  ⟨rfl, by simp [SaberTool.send_command]⟩

/-- C1 counterexample: with the authorization notification never arriving
(`deviceReady = false`, so the session never reached `Authorized`), the
power-on command bytes are still transmitted to the device on the alternate
characteristic — they are not rejected. -/
theorem claim_C1_counterexample :
    SaberTool.BleAction.writeChar .alt
        (PyJson.pyBytes "[2,\x7b\"PowerOn\":true\x7d]") false ∈
      SaberTool.send_command "[2,\x7b\"PowerOn\":true\x7d]".data true false := by
  simp [SaberTool.send_command, PyJson.pyBytes]

/-- C9: the two protocol variants agree on their entire shared interface —
every shared encoder produces identical bytes on every input, and the two
`decode_response` functions agree on every byte string. -/
theorem claim_C9 :
    XenoCC.encode_handshake = XenoBLE.encode_handshake ∧
    XenoCC.encode_authorize = XenoBLE.encode_authorize ∧
    XenoCC.encode_power_on = XenoBLE.encode_power_on ∧
    XenoCC.encode_power_off = XenoBLE.encode_power_off ∧
    (∀ r g b : Int, XenoCC.encode_color r g b = XenoBLE.encode_color r g b) ∧
    (∀ v : Int, XenoCC.encode_brightness v = XenoBLE.encode_brightness v) ∧
    (∀ v : Int, XenoCC.encode_volume v = XenoBLE.encode_volume v) ∧
    (∀ n : Int, XenoCC.encode_sound_font n = XenoBLE.encode_sound_font n) ∧
    (∀ n : Int, XenoCC.encode_light_effect n = XenoBLE.encode_light_effect n) ∧
    (∀ data : List Nat, XenoCC.decode_response data = XenoBLE.decode_response data) :=
  ⟨rfl, rfl, rfl, rfl, fun _ _ _ => rfl, fun _ => rfl, fun _ => rfl, fun _ => rfl,
   fun _ => rfl, fun _ => rfl⟩

namespace PyJson

theorem digitChar_toNat (d : Nat) (h : d < 10) : (digitChar d).toNat = 48 + d := by
  interval_cases d <;> rfl

theorem isDigit_digitChar (d : Nat) (h : d < 10) : isDigit (digitChar d) = true := by
  interval_cases d <;> rfl

theorem digitChar_ne_zero (d : Nat) (h1 : 1 ≤ d) (h2 : d < 10) : digitChar d ≠ '0' := by
  interval_cases d <;> decide

theorem natCharsAux_all_digit :
    ∀ fuel n, n < fuel → ∀ c ∈ natCharsAux fuel n, isDigit c = true := by
  intro fuel
  induction fuel with
  | zero => intro n h; omega
  | succ f ih =>
    intro n h c hc
    simp only [natCharsAux] at hc
    by_cases h10 : n < 10
    · rw [if_pos h10] at hc
      simp only [List.mem_singleton] at hc
      subst hc
      exact isDigit_digitChar n h10
    · rw [if_neg h10] at hc
      rcases List.mem_append.mp hc with h1 | h2
      · have hdiv : n / 10 < f := by
          have := Nat.div_lt_self (show 0 < n by omega) (show 1 < 10 by omega)
          omega
        exact ih (n / 10) hdiv c h1
      · simp only [List.mem_singleton] at h2
        subst h2
        exact isDigit_digitChar _ (Nat.mod_lt _ (by omega))

theorem digitsVal_append_one (xs : List Char) (c : Char) :
    digitsVal (xs ++ [c]) = 10 * digitsVal xs + (c.toNat - 48) := by
  simp [digitsVal, List.foldl_append]

theorem natCharsAux_val :
    ∀ fuel n, n < fuel → digitsVal (natCharsAux fuel n) = n := by
  intro fuel
  induction fuel with
  | zero => intro n h; omega
  | succ f ih =>
    intro n h
    simp only [natCharsAux]
    by_cases h10 : n < 10
    · rw [if_pos h10]
      have := digitChar_toNat n h10
      simp [digitsVal, this]
    · rw [if_neg h10]
      rw [digitsVal_append_one]
      have hdiv : n / 10 < f := by
        have := Nat.div_lt_self (show 0 < n by omega) (show 1 < 10 by omega)
        omega
      rw [ih (n / 10) hdiv, digitChar_toNat (n % 10) (Nat.mod_lt _ (by omega))]
      omega

theorem natCharsAux_ne_nil (fuel n : Nat) (h : n < fuel) : natCharsAux fuel n ≠ [] := by
  cases fuel with
  | zero => omega
  | succ f =>
    simp only [natCharsAux]
    by_cases h10 : n < 10
    · rw [if_pos h10]; simp
    · rw [if_neg h10]; simp

theorem natCharsAux_head_ne_zero :
    ∀ fuel n, n < fuel → 1 ≤ n → ∀ c cs, natCharsAux fuel n = c :: cs → c ≠ '0' := by
  intro fuel
  induction fuel with
  | zero => intro n h; omega
  | succ f ih =>
    intro n h h1 c cs hc
    simp only [natCharsAux] at hc
    by_cases h10 : n < 10
    · rw [if_pos h10] at hc
      obtain ⟨hc1, -⟩ : digitChar n = c ∧ [] = cs := by simpa using hc
      rw [← hc1]
      exact digitChar_ne_zero n h1 h10
    · rw [if_neg h10] at hc
      have hdiv : n / 10 < f := by
        have := Nat.div_lt_self (show 0 < n by omega) (show 1 < 10 by omega)
        omega
      have hone : 1 ≤ n / 10 := by
        have := Nat.div_le_div_right (c := 10) (show 10 ≤ n by omega)
        simpa using this
      rcases hd : natCharsAux f (n / 10) with _ | ⟨d, ds⟩
      · exact absurd hd (natCharsAux_ne_nil f (n / 10) hdiv)
      · rw [hd] at hc
        have hcd : d = c := by simpa using congrArg (fun l => l.headD '0') hc
        rw [← hcd]
        exact ih (n / 10) hdiv hone d ds hd

theorem takeWhile_append_all (p : Char → Bool) :
    ∀ xs ys : List Char, (∀ c ∈ xs, p c = true) →
      (xs ++ ys).takeWhile p = xs ++ ys.takeWhile p := by
  intro xs
  induction xs with
  | nil => intro ys _; rfl
  | cons x xs ih =>
    intro ys h
    have hx : p x = true := h x (List.mem_cons_self x xs)
    simp only [List.cons_append, List.takeWhile_cons, hx, if_true]
    rw [ih ys (fun c hc => h c (List.mem_cons_of_mem x hc))]

theorem dropWhile_append_all (p : Char → Bool) :
    ∀ xs ys : List Char, (∀ c ∈ xs, p c = true) →
      (xs ++ ys).dropWhile p = ys.dropWhile p := by
  intro xs
  induction xs with
  | nil => intro ys _; rfl
  | cons x xs ih =>
    intro ys h
    have hx : p x = true := h x (List.mem_cons_self x xs)
    simp only [List.cons_append, List.dropWhile_cons, hx, if_true]
    exact ih ys (fun c hc => h c (List.mem_cons_of_mem x hc))

theorem takeWhile_nonDigit (ys : List Char) (h : nonDigitStart ys = true) :
    ys.takeWhile isDigit = [] := by
  cases ys with
  | nil => rfl
  | cons c cs =>
    simp only [nonDigitStart, Bool.not_eq_true'] at h
    simp [List.takeWhile_cons, h]

theorem dropWhile_nonDigit (ys : List Char) (h : nonDigitStart ys = true) :
    ys.dropWhile isDigit = ys := by
  cases ys with
  | nil => rfl
  | cons c cs =>
    simp only [nonDigitStart, Bool.not_eq_true'] at h
    simp [List.dropWhile_cons, h]

theorem parseNat_natChars (n : Nat) (rest : List Char) (h : nonDigitStart rest = true) :
    parseNat (natChars n ++ rest) = some (n, rest) := by
  have hall : ∀ c ∈ natChars n, isDigit c = true := natCharsAux_all_digit (n + 1) n (by omega)
  have htw : (natChars n ++ rest).takeWhile isDigit = natChars n := by
    rw [takeWhile_append_all isDigit (natChars n) rest hall, takeWhile_nonDigit rest h,
      List.append_nil]
  have hdw : (natChars n ++ rest).dropWhile isDigit = rest := by
    rw [dropWhile_append_all isDigit (natChars n) rest hall, dropWhile_nonDigit rest h]
  have hval : digitsVal (natChars n) = n := natCharsAux_val (n + 1) n (by omega)
  unfold parseNat
  rw [htw, hdw]
  rcases hnc : natChars n with _ | ⟨d, _ | ⟨d2, ds⟩⟩
  · exact absurd hnc (natCharsAux_ne_nil (n + 1) n (by omega))
  · rw [hnc] at hval
    simp only [digitsVal, List.foldl_cons, List.foldl_nil, Nat.mul_zero, Nat.zero_add] at hval
    simp [hval]
  · have h10 : ¬ n < 10 := by
      intro h10
      rw [show natChars n = [digitChar n] by
        simp [natChars, natCharsAux, if_pos h10]] at hnc
      simp at hnc
    have hd0 : d ≠ '0' := natCharsAux_head_ne_zero (n + 1) n (by omega) (by omega) d _ hnc
    rw [hnc] at hval
    simp [hd0, hval]

theorem isDigit_toNat (c : Char) (h : isDigit c = true) :
    48 ≤ c.toNat ∧ c.toNat ≤ 57 := by
  simpa [isDigit] using h

theorem isDigit_ne_minus (c : Char) (h : isDigit c = true) : ¬ c = '-' := by
  intro he
  rw [he] at h
  exact absurd h (by decide)

theorem parseNumber_intChars (n : Int) (rest : List Char) (h : nonDigitStart rest = true) :
    parseNumber (intChars n ++ rest) = some (n, rest) := by
  unfold intChars
  by_cases hn : n < 0
  · rw [if_pos hn]
    simp only [List.cons_append, parseNumber, if_pos rfl]
    rw [parseNat_natChars n.natAbs rest h]
    simp only [Option.map_some', if_true]
    have hg : -((n.natAbs : Nat) : Int) = n := by omega
    rw [hg]
  · rw [if_neg hn]
    rcases hnc : natChars n.toNat with _ | ⟨d, ds⟩
    · exact absurd hnc (natCharsAux_ne_nil (n.toNat + 1) n.toNat (by omega))
    · have hd : isDigit d = true := by
        have hh := natCharsAux_all_digit (n.toNat + 1) n.toNat (by omega) d
        rw [show natCharsAux (n.toNat + 1) n.toNat = natChars n.toNat from rfl, hnc] at hh
        exact hh (List.mem_cons_self d ds)
      have hsh : natChars n.toNat ++ rest = d :: (ds ++ rest) := by
        rw [hnc, List.cons_append]
      simp only [List.cons_append, parseNumber, if_neg (isDigit_ne_minus d hd)]
      rw [← hsh, parseNat_natChars n.toNat rest h]
      simp only [Option.map_some']
      have hg : ((n.toNat : Nat) : Int) = n := by omega
      rw [hg]

end PyJson

namespace PyJson

theorem string_mk_data (s : String) : String.mk s.data = s := by
  cases s
  rfl

theorem skipWs_cons_false {c : Char} (cs : List Char) (h : isWs c = false) :
    skipWs (c :: cs) = c :: cs := by
  simp [skipWs, h]

theorem plainChar_spec (c : Char) (h : plainChar c = true) :
    0x20 ≤ c.toNat ∧ c.toNat < 0x7F ∧ c ≠ quoteChar ∧ c ≠ backslashChar := by
  simp only [plainChar, Bool.and_eq_true, Bool.not_eq_true', beq_eq_false_iff_ne,
    decide_eq_true_eq] at h
  exact ⟨h.1.1.1, h.1.1.2, h.1.2, h.2⟩

theorem plainChar_ne_ctrl (c : Char) (h : plainChar c = true) (k : Nat)
    (hk : (Char.ofNat k).toNat = k) (hlt : k < 0x20) : c ≠ Char.ofNat k := by
  intro he
  have h32 := (plainChar_spec c h).1
  rw [he, hk] at h32
  omega

theorem escapeChar_plain (c : Char) (h : plainChar c = true) : escapeChar c = [c] := by
  obtain ⟨h32, h7f, hq, hb⟩ := plainChar_spec c h
  unfold escapeChar
  rw [if_neg hq, if_neg hb,
    if_neg (plainChar_ne_ctrl c h 10 (by decide) (by omega)),
    if_neg (plainChar_ne_ctrl c h 13 (by decide) (by omega)),
    if_neg (plainChar_ne_ctrl c h 9 (by decide) (by omega)),
    if_neg (plainChar_ne_ctrl c h 8 (by decide) (by omega)),
    if_neg (plainChar_ne_ctrl c h 12 (by decide) (by omega)),
    if_neg (by omega), if_pos h7f]

theorem flatten_map_escape (l : List Char) (h : ∀ c ∈ l, plainChar c = true) :
    (l.map escapeChar).flatten = l := by
  induction l with
  | nil => rfl
  | cons c cs ih =>
    simp only [List.map_cons, List.flatten_cons]
    rw [escapeChar_plain c (h c (List.mem_cons_self c cs)),
      ih (fun x hx => h x (List.mem_cons_of_mem c hx))]
    rfl

theorem renderString_plain (s : String) (h : plainStr s = true) :
    renderString s = quoteChar :: s.data ++ [quoteChar] := by
  unfold renderString
  rw [flatten_map_escape s.data (by simpa [plainStr, List.all_eq_true] using h)]

theorem parseStringAux_plain :
    ∀ (l : List Char), (∀ c ∈ l, plainChar c = true) →
      ∀ (rest : List Char) (fuel : Nat), l.length + 1 ≤ fuel →
        parseStringAux fuel (l ++ quoteChar :: rest) = some (l, rest) := by
  intro l
  induction l with
  | nil =>
    intro _ rest fuel hf
    obtain ⟨f, rfl⟩ : ∃ f, fuel = f + 1 := ⟨fuel - 1, by omega⟩
    rfl
  | cons c cs ih =>
    intro h rest fuel hf
    obtain ⟨f, rfl⟩ : ∃ f, fuel = f + 1 := ⟨fuel - 1, by omega⟩
    obtain ⟨h32, h7f, hq, hb⟩ := plainChar_spec c (h c (List.mem_cons_self c cs))
    simp only [List.cons_append, parseStringAux, if_neg hq, if_neg hb,
      if_neg (show ¬ c.toNat < 0x20 by omega), List.append_eq]
    rw [ih (fun x hx => h x (List.mem_cons_of_mem c hx)) rest f
      (by simp only [List.length_cons] at hf; omega)]
    rfl

theorem parseStringChars_plain (l : List Char) (h : ∀ c ∈ l, plainChar c = true)
    (rest : List Char) :
    parseStringChars (l ++ quoteChar :: rest) = some (l, rest) := by
  unfold parseStringChars
  exact parseStringAux_plain l h rest _
    (by simp only [List.length_append, List.length_cons]; omega)

theorem intChars_head (n : Int) :
    ∃ d ds, intChars n = d :: ds ∧ (d = '-' ∨ isDigit d = true) := by
  unfold intChars
  by_cases hn : n < 0
  · rw [if_pos hn]
    exact ⟨'-', natChars n.natAbs, rfl, Or.inl rfl⟩
  · rw [if_neg hn]
    rcases hnc : natChars n.toNat with _ | ⟨d, ds⟩
    · exact absurd hnc (natCharsAux_ne_nil (n.toNat + 1) n.toNat (by omega))
    · refine ⟨d, ds, rfl, Or.inr ?_⟩
      have hh := natCharsAux_all_digit (n.toNat + 1) n.toNat (by omega) d
      rw [show natCharsAux (n.toNat + 1) n.toNat = natChars n.toNat from rfl, hnc] at hh
      exact hh (List.mem_cons_self d ds)

theorem intChars_ascii (n : Int) : ∀ c ∈ intChars n, c.toNat < 0x80 := by
  intro c hc
  unfold intChars at hc
  by_cases hn : n < 0
  · rw [if_pos hn] at hc
    rcases List.mem_cons.mp hc with rfl | hc2
    · decide
    · have := natCharsAux_all_digit (n.natAbs + 1) n.natAbs (by omega) c hc2
      have := isDigit_toNat c this
      omega
  · rw [if_neg hn] at hc
    have := natCharsAux_all_digit (n.toNat + 1) n.toNat (by omega) c hc
    have := isDigit_toNat c this
    omega

theorem utf8EncodeChar_ascii (c : Char) (h : c.toNat < 0x80) :
    utf8EncodeChar c = [c.toNat] := by
  simp [utf8EncodeChar, h]

theorem utf8Encode_cons_ascii (c : Char) (cs : List Char) (h : c.toNat < 0x80) :
    utf8Encode (c :: cs) = c.toNat :: utf8Encode cs := by
  show (List.map utf8EncodeChar (c :: cs)).flatten = _
  simp only [List.map_cons, List.flatten_cons, utf8EncodeChar_ascii c h]
  rfl

theorem utf8DecodeOne_ascii (c : Char) (rest : List Nat) (h : c.toNat < 0x80) :
    utf8DecodeOne (c.toNat :: rest) = some (c, rest) := by
  simp only [utf8DecodeOne]
  rw [if_pos h, Char.ofNat_toNat]

theorem utf8DecodeAux_ascii :
    ∀ cs : List Char, (∀ c ∈ cs, c.toNat < 0x80) →
      ∀ fuel, cs.length + 1 ≤ fuel → utf8DecodeAux fuel (utf8Encode cs) = some cs := by
  intro cs
  induction cs with
  | nil =>
    intro _ fuel hf
    obtain ⟨f, rfl⟩ : ∃ f, fuel = f + 1 := ⟨fuel - 1, by omega⟩
    rfl
  | cons c cs ih =>
    intro h fuel hf
    obtain ⟨f, rfl⟩ : ∃ f, fuel = f + 1 := ⟨fuel - 1, by omega⟩
    have hc : c.toNat < 0x80 := h c (List.mem_cons_self c cs)
    rw [utf8Encode_cons_ascii c cs hc]
    simp only [utf8DecodeAux, utf8DecodeOne_ascii c _ hc]
    rw [ih (fun x hx => h x (List.mem_cons_of_mem c hx)) f
      (by simp only [List.length_cons] at hf; omega)]
    rfl

theorem utf8Encode_length_ge (cs : List Char) : cs.length ≤ (utf8Encode cs).length := by
  induction cs with
  | nil => simp [utf8Encode]
  | cons c cs ih =>
    show cs.length + 1 ≤ ((List.map utf8EncodeChar (c :: cs)).flatten).length
    simp only [List.map_cons, List.flatten_cons, List.length_append]
    have h1 : 1 ≤ (utf8EncodeChar c).length := by
      unfold utf8EncodeChar
      simp only []
      split_ifs <;> simp
    have h2 : cs.length ≤ ((List.map utf8EncodeChar cs).flatten).length := ih
    omega

theorem utf8_roundtrip_ascii (cs : List Char) (h : ∀ c ∈ cs, c.toNat < 0x80) :
    utf8Decode (utf8Encode cs) = some cs := by
  unfold utf8Decode
  exact utf8DecodeAux_ascii cs h _ (by have := utf8Encode_length_ge cs; omega)

end PyJson

namespace PyJson

theorem toNat_ne_imp (c e : Char) (h : c.toNat ≠ e.toNat) : c ≠ e :=
  fun he => h (congrArg Char.toNat he)

theorem parseValue_num (fuel : Nat) (hf : 1 ≤ fuel) (n : Int) (rest : List Char)
    (hrest : nonDigitStart rest = true) :
    parseValue fuel (intChars n ++ rest) = some (.num n, rest) := by
  obtain ⟨f, rfl⟩ : ∃ f, fuel = f + 1 := ⟨fuel - 1, by omega⟩
  obtain ⟨d, ds, hds, hd⟩ := intChars_head n
  have hpn := parseNumber_intChars n rest hrest
  rw [hds] at hpn ⊢
  simp only [List.cons_append] at hpn ⊢
  have hdt : d.toNat = 45 ∨ (48 ≤ d.toNat ∧ d.toNat ≤ 57) := by
    rcases hd with rfl | hd
    · exact Or.inl (by decide)
    · exact Or.inr (isDigit_toNat d hd)
  have h1 : ¬ d = lbrace := toNat_ne_imp d lbrace
    (by have : lbrace.toNat = 123 := rfl; omega)
  have h2 : ¬ d = '[' := toNat_ne_imp d '['
    (by have : ('[').toNat = 91 := rfl; omega)
  have h3 : ¬ d = quoteChar := toNat_ne_imp d quoteChar
    (by have : quoteChar.toNat = 34 := rfl; omega)
  have h4 : ¬ d = 't' := toNat_ne_imp d 't'
    (by have : ('t').toNat = 116 := rfl; omega)
  have h5 : ¬ d = 'f' := toNat_ne_imp d 'f'
    (by have : ('f').toNat = 102 := rfl; omega)
  have h6 : ¬ d = 'n' := toNat_ne_imp d 'n'
    (by have : ('n').toNat = 110 := rfl; omega)
  have hw1 : ¬ d = ' ' := toNat_ne_imp d ' '
    (by have : (' ').toNat = 32 := rfl; omega)
  have hw2 : ¬ d = Char.ofNat 9 := toNat_ne_imp d (Char.ofNat 9)
    (by have : (Char.ofNat 9).toNat = 9 := rfl; omega)
  have hw3 : ¬ d = Char.ofNat 10 := toNat_ne_imp d (Char.ofNat 10)
    (by have : (Char.ofNat 10).toNat = 10 := rfl; omega)
  have hw4 : ¬ d = Char.ofNat 13 := toNat_ne_imp d (Char.ofNat 13)
    (by have : (Char.ofNat 13).toNat = 13 := rfl; omega)
  have hnws : isWs d = false := by simp [isWs, hw1, hw2, hw3, hw4]
  simp only [parseValue]
  rw [skipWs_cons_false _ hnws]
  simp only [if_neg h1, if_neg h2, if_neg h3, if_neg h4, if_neg h5, if_neg h6]
  rw [hpn]

theorem parseValue_arrShape (f : Nat) (cs : List Char) (xs : List Json) (out : List Char)
    (h : parseElemsFirst f cs = some (xs, out)) :
    parseValue (f + 1) ('[' :: cs) = some (.arr xs, out) := by
  simp +decide [parseValue, skipWs, isWs, lbrace, quoteChar, h]

theorem parseValue_objShape (f : Nat) (cs : List Char) (ms : List (String × Json))
    (out : List Char) (h : parseMembersFirst f cs = some (ms, out)) :
    parseValue (f + 1) (lbrace :: cs) = some (.obj (membersToDict ms), out) := by
  simp +decide [parseValue, skipWs, isWs, lbrace, quoteChar, h]

theorem parseElemsFirst_value (f : Nat) (c : Char) (cs : List Char) (x : Json)
    (out : List Char) (xs : List Json) (out2 : List Char)
    (hc1 : isWs c = false) (hc2 : ¬ c = ']')
    (hval : parseValue f (c :: cs) = some (x, out))
    (hrest : parseElemsRest f out = some (xs, out2)) :
    parseElemsFirst (f + 1) (c :: cs) = some (x :: xs, out2) := by
  simp only [parseElemsFirst]
  rw [skipWs_cons_false _ hc1]
  simp only [if_neg hc2, hval, hrest]

theorem parseElemsRest_comma (f : Nat) (cs : List Char) (x : Json) (out : List Char)
    (xs : List Json) (out2 : List Char)
    (hval : parseValue f cs = some (x, out))
    (hrest : parseElemsRest f out = some (xs, out2)) :
    parseElemsRest (f + 1) (',' :: cs) = some (x :: xs, out2) := by
  simp only [parseElemsRest]
  rw [skipWs_cons_false _ (by decide)]
  simp +decide [hval, hrest]

theorem parseElemsRest_close (f : Nat) (out : List Char) :
    parseElemsRest (f + 1) (']' :: out) = some ([], out) := by
  simp +decide [parseElemsRest, skipWs, isWs]

theorem parseMembersRest_close (f : Nat) (out : List Char) :
    parseMembersRest (f + 1) (rbrace :: out) = some ([], out) := by
  simp +decide [parseMembersRest, skipWs, isWs, rbrace]

theorem parseMember_kv (f : Nat) (k : String) (cs : List Char) (v : Json)
    (out : List Char)
    (hk : plainStr k = true)
    (hval : parseValue f cs = some (v, out)) :
    parseMember (f + 1) (renderString k ++ ':' :: cs) = some ((k, v), out) := by
  rw [renderString_plain k hk]
  have hplain : ∀ c ∈ k.data, plainChar c = true := by
    simpa [plainStr, List.all_eq_true] using hk
  have hsc : parseStringChars (k.data ++ quoteChar :: (':' :: cs)) =
      some (k.data, ':' :: cs) := parseStringChars_plain k.data hplain (':' :: cs)
  simp only [parseMember, List.cons_append, List.append_assoc, List.singleton_append]
  rw [skipWs_cons_false _ (by decide)]
  simp only [if_true, List.nil_append]
  rw [hsc]
  simp only []
  rw [skipWs_cons_false _ (by decide)]
  simp +decide [hval, string_mk_data]

theorem parseMembersFirst_kv (f : Nat) (k : String) (cs : List Char) (res : String × Json)
    (out : List Char) (ms : List (String × Json)) (out2 : List Char)
    (hk : plainStr k = true)
    (hmem : parseMember f (renderString k ++ ':' :: cs) = some (res, out))
    (hrest : parseMembersRest f out = some (ms, out2)) :
    parseMembersFirst (f + 1) (renderString k ++ ':' :: cs) = some (res :: ms, out2) := by
  rw [renderString_plain k hk] at hmem ⊢
  simp only [parseMembersFirst, List.cons_append]
  rw [skipWs_cons_false _ (by decide)]
  simp +decide only []
  rw [show quoteChar :: (k.data ++ [quoteChar] ++ ':' :: cs) =
    quoteChar :: k.data ++ [quoteChar] ++ ':' :: cs by simp]
  rw [hmem]
  simp only [if_false, hrest]

end PyJson

namespace PyJson

theorem intChars_head_facts (n : Int) :
    ∃ d ds, intChars n = d :: ds ∧ isWs d = false ∧ ¬ d = ']' := by
  obtain ⟨d, ds, hds, hd⟩ := intChars_head n
  have hdt : d.toNat = 45 ∨ (48 ≤ d.toNat ∧ d.toNat ≤ 57) := by
    rcases hd with rfl | hd
    · exact Or.inl (by decide)
    · exact Or.inr (isDigit_toNat d hd)
  refine ⟨d, ds, hds, ?_, ?_⟩
  · have hw1 : ¬ d = ' ' := toNat_ne_imp d ' ' (by have : (' ').toNat = 32 := rfl; omega)
    have hw2 : ¬ d = Char.ofNat 9 := toNat_ne_imp d (Char.ofNat 9)
      (by have : (Char.ofNat 9).toNat = 9 := rfl; omega)
    have hw3 : ¬ d = Char.ofNat 10 := toNat_ne_imp d (Char.ofNat 10)
      (by have : (Char.ofNat 10).toNat = 10 := rfl; omega)
    have hw4 : ¬ d = Char.ofNat 13 := toNat_ne_imp d (Char.ofNat 13)
      (by have : (Char.ofNat 13).toNat = 13 := rfl; omega)
    simp [isWs, hw1, hw2, hw3, hw4]
  · exact toNat_ne_imp d ']' (by have : (']').toNat = 93 := rfl; omega)

theorem parseValue_rgb (fuel : Nat) (hf : 5 ≤ fuel) (a b c : Int) (rest : List Char) :
    parseValue fuel (render (.arr [.num a, .num b, .num c]) ++ rest) =
      some (.arr [.num a, .num b, .num c], rest) := by
  obtain ⟨f, rfl⟩ : ∃ f, fuel = f + 5 := ⟨fuel - 5, by omega⟩
  have hsh : render (.arr [.num a, .num b, .num c]) ++ rest =
      '[' :: (intChars a ++ ',' :: (intChars b ++ ',' :: (intChars c ++ ']' :: rest))) := by
    simp [render, renderElems, List.append_assoc]
  rw [hsh]
  refine parseValue_arrShape (f + 4) _ _ _ ?_
  obtain ⟨d, ds, hds, hws, hbr⟩ := intChars_head_facts a
  have hva : parseValue (f + 3) (intChars a ++ ',' :: (intChars b ++ ',' :: (intChars c ++ ']' :: rest))) =
      some (.num a, ',' :: (intChars b ++ ',' :: (intChars c ++ ']' :: rest))) :=
    parseValue_num (f + 3) (by omega) a _ rfl
  rw [hds, List.cons_append] at hva ⊢
  refine parseElemsFirst_value (f + 3) d _ (.num a) _ _ _ hws hbr hva ?_
  refine parseElemsRest_comma (f + 2) _ (.num b) _ _ _
    (parseValue_num (f + 2) (by omega) b _ rfl) ?_
  refine parseElemsRest_comma (f + 1) _ (.num c) _ _ _
    (parseValue_num (f + 1) (by omega) c _ rfl) ?_
  exact parseElemsRest_close f rest

theorem parseValue_msg (k : String) (v : Json) (fv : Nat) (rest : List Char)
    (hk : plainStr k = true)
    (hv : ∀ f, fv ≤ f → parseValue f (render v ++ rbrace :: ']' :: rest) =
      some (v, rbrace :: ']' :: rest)) :
    ∀ fuel, fv + 6 ≤ fuel →
      parseValue fuel (render (.arr [.num 2, .obj [(k, v)]]) ++ rest) =
        some (.arr [.num 2, .obj [(k, v)]], rest) := by
  intro fuel hfuel
  obtain ⟨g, hge, rfl⟩ : ∃ g, fv ≤ g ∧ fuel = g + 6 :=
    ⟨fuel - 6, by omega, by omega⟩
  have hsh : render (.arr [.num 2, .obj [(k, v)]]) ++ rest =
      '[' :: ('2' :: (',' :: (lbrace ::
        (renderString k ++ ':' :: (render v ++ rbrace :: ']' :: rest))))) := by
    simp [render, renderElems, renderMembers,
      show (intChars 2 : List Char) = ['2'] from by decide, List.append_assoc]
  rw [hsh]
  refine parseValue_arrShape (g + 5) _ _ _ ?_
  have hv2 : parseValue (g + 4)
      ('2' :: (',' :: (lbrace :: (renderString k ++ ':' :: (render v ++ rbrace :: ']' :: rest))))) =
      some (.num 2, ',' :: (lbrace :: (renderString k ++ ':' :: (render v ++ rbrace :: ']' :: rest)))) := by
    have h2 := parseValue_num (g + 4) (by omega) 2
      (',' :: (lbrace :: (renderString k ++ ':' :: (render v ++ rbrace :: ']' :: rest)))) rfl
    rw [show (intChars 2 : List Char) = ['2'] from by decide, List.singleton_append] at h2
    exact h2
  refine parseElemsFirst_value (g + 4) '2' _ (.num 2) _ _ _ (by decide) (by decide) hv2 ?_
  refine parseElemsRest_comma (g + 3) _ (.obj [(k, v)]) (']' :: rest) _ _ ?_ ?_
  · have hmem : parseMember (g + 1)
        (renderString k ++ ':' :: (render v ++ rbrace :: ']' :: rest)) =
        some ((k, v), rbrace :: ']' :: rest) :=
      parseMember_kv g k _ v _ hk (hv g hge)
    have hmf : parseMembersFirst (g + 2)
        (renderString k ++ ':' :: (render v ++ rbrace :: ']' :: rest)) =
        some ([(k, v)], ']' :: rest) :=
      parseMembersFirst_kv (g + 1) k _ (k, v) (rbrace :: ']' :: rest) [] (']' :: rest)
        hk hmem (parseMembersRest_close g _)
    exact parseValue_objShape (g + 2) _ [(k, v)] (']' :: rest) hmf
  · exact parseElemsRest_close (g + 2) rest

theorem render_msg_len (k : String) (v : Json) (hk : plainStr k = true) :
    (render (.arr [.num 2, .obj [(k, v)]])).length =
      k.data.length + (render v).length + 9 := by
  simp [render, renderElems, renderMembers, renderString_plain k hk,
    show (intChars 2 : List Char) = ['2'] from by decide, List.length_append]
  omega

theorem loads_msg (k : String) (v : Json) (fv : Nat)
    (hk : plainStr k = true) (hfv : fv ≤ 13)
    (hv : ∀ f, fv ≤ f → parseValue f (render v ++ rbrace :: ']' :: ([] : List Char)) =
      some (v, rbrace :: ']' :: ([] : List Char))) :
    loads (render (.arr [.num 2, .obj [(k, v)]])) = some (.arr [.num 2, .obj [(k, v)]]) := by
  unfold loads
  have hlen := render_msg_len k v hk
  have hmsg := parseValue_msg k v fv [] hk hv
    (2 * (render (.arr [.num 2, .obj [(k, v)]])).length + 1) (by omega)
  rw [List.append_nil] at hmsg
  rw [hmsg]
  rfl

theorem ascii_cons {d : Char} {l : List Char} (hd : d.toNat < 0x80)
    (h : ∀ c ∈ l, c.toNat < 0x80) : ∀ c ∈ d :: l, c.toNat < 0x80 := by
  intro c hc
  rcases List.mem_cons.mp hc with rfl | hc2
  · exact hd
  · exact h c hc2

theorem ascii_append {l1 l2 : List Char} (h1 : ∀ c ∈ l1, c.toNat < 0x80)
    (h2 : ∀ c ∈ l2, c.toNat < 0x80) : ∀ c ∈ l1 ++ l2, c.toNat < 0x80 := by
  intro c hc
  rcases List.mem_append.mp hc with h | h
  · exact h1 c h
  · exact h2 c h

theorem ascii_nil : ∀ c ∈ ([] : List Char), c.toNat < 0x80 := by
  intro c hc
  exact absurd hc (List.not_mem_nil c)

theorem render_msg_ascii (k : String) (v : Json) (hk : plainStr k = true)
    (hva : ∀ c ∈ render v, c.toNat < 0x80) :
    ∀ c ∈ render (.arr [.num 2, .obj [(k, v)]]), c.toNat < 0x80 := by
  have hplain : ∀ x ∈ k.data, plainChar x = true := by
    simpa [plainStr, List.all_eq_true] using hk
  have hkd : ∀ c ∈ k.data, c.toNat < 0x80 := by
    intro c hc
    have := plainChar_spec c (hplain c hc)
    omega
  have hsh : render (.arr [.num 2, .obj [(k, v)]]) =
      '[' :: ('2' :: (',' :: (lbrace ::
        ((quoteChar :: k.data ++ [quoteChar]) ++ ':' ::
          (render v ++ rbrace :: ']' :: ([] : List Char)))))) := by
    rw [show render (.arr [.num 2, .obj [(k, v)]]) =
        render (.arr [.num 2, .obj [(k, v)]]) ++ [] from (List.append_nil _).symm]
    rw [show (render (.arr [.num 2, .obj [(k, v)]]) ++ [] : List Char) =
        '[' :: ('2' :: (',' :: (lbrace ::
          (renderString k ++ ':' :: (render v ++ rbrace :: ']' :: ([] : List Char)))))) from by
      simp [render, renderElems, renderMembers,
        show (intChars 2 : List Char) = ['2'] from by decide, List.append_assoc]]
    rw [renderString_plain k hk]
  rw [hsh]
  exact ascii_cons (by decide) (ascii_cons (by decide) (ascii_cons (by decide)
    (ascii_cons (by decide) (ascii_append
      (ascii_append (ascii_cons (by decide) hkd) (ascii_cons (by decide) ascii_nil))
      (ascii_cons (by decide) (ascii_append hva (ascii_cons (by decide)
        (ascii_cons (by decide) ascii_nil))))))))

theorem render_rgb_ascii (a b c : Int) :
    ∀ ch ∈ render (.arr [.num a, .num b, .num c]), ch.toNat < 0x80 := by
  have hsh : render (.arr [.num a, .num b, .num c]) =
      '[' :: (intChars a ++ ',' :: (intChars b ++ ',' :: (intChars c ++ [']']))) := by
    simp [render, renderElems, List.append_assoc]
  rw [hsh]
  exact ascii_cons (by decide) (ascii_append (intChars_ascii a)
    (ascii_cons (by decide) (ascii_append (intChars_ascii b)
      (ascii_cons (by decide) (ascii_append (intChars_ascii c)
        (ascii_cons (by decide) ascii_nil))))))

theorem decode_dumps_msg (k : String) (v : Json) (fv : Nat)
    (hk : plainStr k = true) (hfv : fv ≤ 13)
    (hva : ∀ c ∈ render v, c.toNat < 0x80)
    (hv : ∀ f, fv ≤ f → parseValue f (render v ++ rbrace :: ']' :: ([] : List Char)) =
      some (v, rbrace :: ']' :: ([] : List Char))) :
    XenoBLE.decode_response (dumps (.arr [.num 2, .obj [(k, v)]])) =
      some ⟨.num 2, [(k, v)]⟩ := by
  unfold XenoBLE.decode_response dumps
  rw [utf8_roundtrip_ascii _ (render_msg_ascii k v hk hva)]
  simp only [loads_msg k v fv hk hfv hv]
  rfl

end PyJson

/-- C4: `encode_handshake` is byte-exact the UTF-8 of the literal
`[2,{"HandShake":"HelloDamien"}]` (braces spelled via escapes here), and
decoding it back yields kind 2 with the single-entry HandShake parameter. -/
theorem claim_C4 :
    XenoBLE.encode_handshake = PyJson.pyBytes "[2,\x7b\"HandShake\":\"HelloDamien\"\x7d]" ∧
    XenoBLE.decode_response XenoBLE.encode_handshake =
      some ⟨.num 2, [("HandShake", PyJson.Json.str "HelloDamien")]⟩ :=
  ⟨rfl, rfl⟩

/-- C5: every outbound value encoder clamps silently and round-trips — the
decoded message carries exactly the clamped value: color channels into
[0,255], brightness and volume into [0,100], light effect into [1,9]. -/
theorem claim_C5 :
    (∀ r g b : Int,
        XenoBLE.decode_response (XenoBLE.encode_color r g b) =
          some ⟨.num 2, [("BackgroundColor", PyJson.Json.arr
            [.num (max 0 (min 255 r)), .num (max 0 (min 255 g)),
             .num (max 0 (min 255 b))])]⟩) ∧
    (∀ v : Int,
        XenoBLE.decode_response (XenoBLE.encode_brightness v) =
          some ⟨.num 2, [("Brightness", PyJson.Json.num (max 0 (min 100 v)))]⟩) ∧
    (∀ v : Int,
        XenoBLE.decode_response (XenoBLE.encode_volume v) =
          some ⟨.num 2, [("Volume", PyJson.Json.num (max 0 (min 100 v)))]⟩) ∧
    (∀ v : Int,
        XenoBLE.decode_response (XenoBLE.encode_light_effect v) =
          some ⟨.num 2, [("CurrentLightEffect", PyJson.Json.num (max 1 (min 9 v)))]⟩) ∧
    (∀ x : Int, 0 ≤ max 0 (min 255 x) ∧ max 0 (min 255 x) ≤ 255 ∧
        0 ≤ max 0 (min 100 x) ∧ max 0 (min 100 x) ≤ 100 ∧
        1 ≤ max 1 (min 9 x) ∧ max 1 (min 9 x) ≤ 9) := by
  refine ⟨?_, ?_, ?_, ?_,
    fun x => ⟨by omega, by omega, by omega, by omega, by omega, by omega⟩⟩
  · intro r g b
    exact PyJson.decode_dumps_msg "BackgroundColor"
      (.arr [.num (max 0 (min 255 r)), .num (max 0 (min 255 g)), .num (max 0 (min 255 b))])
      5 (by decide) (by omega) (PyJson.render_rgb_ascii _ _ _)
      (fun f hf => PyJson.parseValue_rgb f (by omega) _ _ _ _)
  · intro v
    exact PyJson.decode_dumps_msg "Brightness" (.num (max 0 (min 100 v)))
      1 (by decide) (by omega) (PyJson.intChars_ascii _)
      (fun f hf => PyJson.parseValue_num f (by omega) _ _ (by decide))
  · intro v
    exact PyJson.decode_dumps_msg "Volume" (.num (max 0 (min 100 v)))
      1 (by decide) (by omega) (PyJson.intChars_ascii _)
      (fun f hf => PyJson.parseValue_num f (by omega) _ _ (by decide))
  · intro v
    exact PyJson.decode_dumps_msg "CurrentLightEffect" (.num (max 1 (min 9 v)))
      1 (by decide) (by omega) (PyJson.intChars_ascii _)
      (fun f hf => PyJson.parseValue_num f (by omega) _ _ (by decide))

/-- C2, amended: `decode_response` returns `None` exactly when the bytes
are not valid UTF-8, the text is not valid JSON, or the parsed JSON is not
an array of length at least two; the type of element 0 is never checked —
any leading value is returned verbatim as the kind, and in particular every
array with an integer element 0 (any integer, not just 2 or 3) decodes
successfully with that integer as the kind. -/
theorem claim_C2 :
    (∀ b : List Nat,
        XenoBLE.decode_response b = none ↔
          PyJson.utf8Decode b = none ∨
          (∃ cs, PyJson.utf8Decode b = some cs ∧ PyJson.loads cs = none) ∨
          (∃ cs j, PyJson.utf8Decode b = some cs ∧ PyJson.loads cs = some j ∧
            PyJson.isWireArray j = false)) ∧
    (∀ (b : List Nat) (cs : List Char) (k : Int) (e1 : PyJson.Json) (es : List PyJson.Json),
        PyJson.utf8Decode b = some cs →
        PyJson.loads cs = some (.arr (.num k :: e1 :: es)) →
        XenoBLE.decode_response b = some ⟨.num k, XenoBLE.pyParams e1⟩) := by
  constructor
  · intro b
    unfold XenoBLE.decode_response
    cases hu : PyJson.utf8Decode b with
    | none => simp [hu]
    | some cs =>
      cases hl : PyJson.loads cs with
      | none => simp [hu, hl]
      | some j =>
        rcases j with _ | bb | nn | ss | (_ | ⟨e0, _ | ⟨e1, es⟩⟩) | ms <;>
          simp [hu, hl, PyJson.isWireArray]
  · intro b cs k e1 es hu hl
    unfold XenoBLE.decode_response
    rw [hu]
    simp only [hl]

/-- C2 witness: the second part applied to the wire bytes `[7,...]` — kind
7, understood by neither side of the protocol, still decodes verbatim. -/
theorem claim_C2_witness :
    PyJson.utf8Decode (PyJson.pyBytes "[7,\x7b\x7d]") = some ("[7,\x7b\x7d]".data) ∧
    PyJson.loads ("[7,\x7b\x7d]".data) = some (.arr [.num 7, .obj []]) ∧
    XenoBLE.decode_response (PyJson.pyBytes "[7,\x7b\x7d]") = some ⟨.num 7, []⟩ :=
  ⟨rfl, rfl, claim_C2.2 _ _ 7 (.obj []) [] rfl rfl⟩

/-- C2 counterexample: the claim says decoding fails when element 0 is not
an integer, but the code never checks — `[true,...]` decodes successfully
with the boolean `true` as its kind. -/
theorem claim_C2_counterexample :
    XenoBLE.decode_response (PyJson.pyBytes "[true,\x7b\x7d]") =
      some ⟨PyJson.Json.bool true, []⟩ ∧
    (∀ n : Int, PyJson.Json.bool true ≠ PyJson.Json.num n) :=
  ⟨rfl, fun _ h => PyJson.Json.noConfusion h⟩

/-- C6, amended: when the second array element is present and an object it
becomes `params`; present but not an object, `params` is the empty set; but
an array whose second element is absent (length one) makes `decode_response`
fail with `None` rather than succeed with empty params. -/
theorem claim_C6 :
    (∀ (b : List Nat) (cs : List Char) (e0 e1 : PyJson.Json) (es : List PyJson.Json),
        PyJson.utf8Decode b = some cs →
        PyJson.loads cs = some (.arr (e0 :: e1 :: es)) →
        XenoBLE.decode_response b = some ⟨e0, XenoBLE.pyParams e1⟩) ∧
    (∀ ms, XenoBLE.pyParams (.obj ms) = ms) ∧
    (∀ j, PyJson.isObj j = false → XenoBLE.pyParams j = []) ∧
    (∀ (b : List Nat) (cs : List Char) (e0 : PyJson.Json),
        PyJson.utf8Decode b = some cs →
        PyJson.loads cs = some (.arr [e0]) →
        XenoBLE.decode_response b = none) := by
  refine ⟨?_, fun ms => rfl, ?_, ?_⟩
  · intro b cs e0 e1 es hu hl
    unfold XenoBLE.decode_response
    rw [hu]
    simp only [hl]
  · intro j hj
    cases j <;> simp_all [PyJson.isObj, XenoBLE.pyParams]
  · intro b cs e0 hu hl
    unfold XenoBLE.decode_response
    rw [hu]
    simp only [hl]

/-- C6 witness: the first part applied to `[3,4]` — second element present
but not an object, so params is empty and decoding still succeeds. -/
theorem claim_C6_witness :
    PyJson.utf8Decode (PyJson.pyBytes "[3,4]") = some ("[3,4]".data) ∧
    PyJson.loads ("[3,4]".data) = some (.arr [.num 3, .num 4]) ∧
    XenoBLE.decode_response (PyJson.pyBytes "[3,4]") = some ⟨.num 3, []⟩ :=
  ⟨rfl, rfl, claim_C6.1 _ _ (.num 3) (.num 4) [] rfl rfl⟩

/-- C6 counterexample: `[2]` is valid JSON whose second element is absent,
and `decode_response` returns `None` for it — not a success with empty
params as the claim states. -/
theorem claim_C6_counterexample :
    PyJson.loads ("[2]".data) = some (PyJson.Json.arr [.num 2]) ∧
    XenoBLE.decode_response (PyJson.pyBytes "[2]") = none :=
  ⟨rfl, rfl⟩
